import Mathlib

/-!
Verification of the plugin-dependency-graph pipeline
(`utils/dataProcessor.ts` and `components/DependencyGraph.tsx`).

The development shallowly embeds the data model, the graph builder, the
cascading filter stage for both visualization modes ("add" and "expose"),
the layout computation and the link router.  JavaScript strings are Lean
`String`s; JavaScript `Map`s that are only used for keyed lookup and
insertion-ordered iteration are modelled as ordered association lists;
JavaScript numbers in the geometry code are modelled as rationals.
-/

set_option maxHeartbeats 1000000

namespace PluginGraph

/-! ## String helpers mirroring the JavaScript string operations -/

/-- JavaScript `pre + rest === s ? s.startsWith(pre)` on raw character data. -/
def jsStartsWith (s pre : String) : Bool := pre.data.isPrefixOf s.data

/-- JavaScript `String.prototype.split` with a single-character separator:
always returns at least one (possibly empty) segment. -/
def splitChar (sep : Char) : List Char → List (List Char)
  | [] => [[]]
  | c :: cs =>
    if c = sep then [] :: splitChar sep cs
    else
      match splitChar sep cs with
      | [] => [[c]]
      | h :: t => (c :: h) :: t

/-- First `'/'`-separated segment of a string (`target.split('/')[0]`). -/
def firstSegment (s : String) : String := ⟨(splitChar '/' s.data).headD []⟩

/-- `sub` occurs as a contiguous substring of `s`
(JavaScript `String.prototype.includes`). -/
def containsSub (s sub : List Char) : Bool :=
  match s with
  | [] => sub.isEmpty
  | _ :: rest => sub.isPrefixOf s || containsSub rest sub

/-- Remove a leading occurrence of `pre` (JavaScript `replace(/^pre/, '')`). -/
def dropPrefixData (pre s : List Char) : List Char :=
  if pre.isPrefixOf s then s.drop pre.length else s

/-- Remove a trailing occurrence of `suf` (JavaScript `replace(/suf$/, '')`). -/
def dropSuffixData (suf s : List Char) : List Char :=
  if suf.isSuffixOf s then s.take (s.length - suf.length) else s

/-- Uppercase the first word character of every word
(JavaScript `replace(/\b\w/g, l => l.toUpperCase())`).  The boolean argument
records whether the previous character was a word character. -/
def titleCaseData : Bool → List Char → List Char
  | _, [] => []
  | prevWord, c :: cs =>
    let isW := c.isAlphanum || c == '_'
    (if isW && !prevWord then c.toUpper else c) :: titleCaseData isW cs

/-- JavaScript `String.prototype.trim`. -/
def jsTrim (s : String) : String :=
  ⟨((s.data.dropWhile Char.isWhitespace).reverse.dropWhile Char.isWhitespace).reverse⟩

/-- `getDisplayName` from `dataProcessor.ts`: the synthetic core id maps to a
fixed label; otherwise strip a leading `grafana-` and a trailing `-app`,
replace hyphens with spaces and title-case each word. -/
def getDisplayName (pluginId : String) : String :=
  if pluginId == "grafana-core" then "Grafana Core"
  else
    let d := dropPrefixData "grafana-".data pluginId.data
    let d := dropSuffixData "-app".data d
    let d := d.map (fun c => if c == '-' then ' ' else c)
    ⟨titleCaseData false d⟩

/-- `getPluginType` from `dataProcessor.ts`. -/
def getPluginType (pluginId : String) : String :=
  if pluginId == "grafana-core" then "app"
  else if containsSub pluginId.data "-panel".data then "panel"
  else if containsSub pluginId.data "-datasource".data then "datasource"
  else "app"

/-! ## Data model (`types.ts`) -/

/-- A plugin node of the graph. -/
structure PluginNode where
  id : String
  name : String
  type : String
  version : Option String := none
  description : Option String := none
deriving DecidableEq, Repr

/-- A dependency edge. -/
structure PluginDependency where
  source : String
  target : String
  type : String
  description : String := ""
deriving DecidableEq, Repr

/-- An "Add"-mode mediating entity. -/
structure ExtensionPoint where
  id : String
  definingPlugin : String
  providers : List String
  extensionType : String
  title : Option String := none
  description : Option String := none
deriving DecidableEq, Repr

/-- An "Expose"-mode mediating entity. -/
structure ExposedComponent where
  id : String
  title : String
  description : String
  providingPlugin : String
  consumers : List String
deriving DecidableEq, Repr

/-- The aggregate graph produced and consumed by the pipeline stages. -/
structure GraphData where
  nodes : List PluginNode
  dependencies : List PluginDependency
  extensionPoints : List ExtensionPoint
  exposedComponents : List ExposedComponent := []
deriving DecidableEq, Repr

/-- The subset of the panel options record consumed by the core pipeline. -/
structure PanelOptions where
  visualizationMode : String := "add"
  showDependencyTypes : Bool := true
  showDescriptions : Bool := false
  selectedContentProviders : List String := []
  selectedContentConsumers : List String := []
deriving DecidableEq, Repr

/-! ## FilterEngine

The cascading filter is inlined in `processPluginDataToGraph`
(`dataProcessor.ts` lines 916-972) and `processPluginDataToExposeGraph`
(lines 1077-1147).  It is extracted here as a function of the built graph
and the two selection lists. -/

/-- Step 1 of the Add-mode provider filter: intersect an extension point's
provider list with the selection. -/
def trimProviders (selP : List String) (ep : ExtensionPoint) : ExtensionPoint :=
  { ep with providers := ep.providers.filter (fun p => selP.contains p) }

/-- The defining plugin of the (first-found) extension point a dependency
targets, if any (`extensionPoints.find((ep) => ep.id === dep.target)`). -/
def depTargetDef (eps : List ExtensionPoint) (d : PluginDependency) : Option String :=
  (eps.find? (fun ep => ep.id == d.target)).map (fun ep => ep.definingPlugin)

/-- The default consumer set (Add mode): defining plugins of extension
points that are the (first-found) target of some surviving dependency. -/
def activeConsumersB (deps : List PluginDependency) (eps : List ExtensionPoint)
    (x : String) : Bool :=
  deps.any (fun d => depTargetDef eps d == some x)

/-- The provider step of the Add-mode filter (`if
(options.selectedContentProviders && ... .length > 0)`, lines 921-943). -/
def addFilterP (g : GraphData) (selP : List String) : GraphData :=
  if selP.isEmpty then g
  else
    let deps1 := g.dependencies.filter (fun d => selP.contains d.source)
    let eps1 := (g.extensionPoints.map (trimProviders selP)).filter
      (fun ep => !ep.providers.isEmpty)
    let nodes1 := g.nodes.filter (fun n =>
      selP.contains n.id || eps1.any (fun ep => ep.definingPlugin == n.id))
    { nodes := nodes1, dependencies := deps1, extensionPoints := eps1,
      exposedComponents := g.exposedComponents }

/-- The consumer set used by the Add-mode consumer step: the selection
verbatim when non-empty, the reachable defining plugins otherwise. -/
def consumersToShow (g : GraphData) (selC : List String) : String → Bool :=
  if selC.isEmpty then activeConsumersB g.dependencies g.extensionPoints
  else fun x => selC.contains x

/-- The consumer step of the Add-mode filter (lines 945-972). -/
def addFilterC (g : GraphData) (selC : List String) : GraphData :=
  let eps2 := g.extensionPoints.filter
    (fun ep => consumersToShow g selC ep.definingPlugin)
  let deps2 := g.dependencies.filter
    (fun d => eps2.any (fun ep => ep.id == d.target))
  let nodes2 := g.nodes.filter (fun n =>
    consumersToShow g selC n.id || deps2.any (fun d => d.source == n.id))
  { nodes := nodes2, dependencies := deps2, extensionPoints := eps2,
    exposedComponents := [] }

/-- The Add-mode cascading filter (`processPluginDataToGraph`, lines
916-972): the provider step followed by the consumer step. -/
def addFilter (g : GraphData) (selP selC : List String) : GraphData :=
  addFilterC (addFilterP g selP) selC

/-- The Expose-mode cascading filter (`processPluginDataToExposeGraph`,
lines 1077-1147).  Note that the provider step filters dependencies on
`dep.target` and the consumer step on `dep.source`, exactly as the source
does. -/
def exposeFilter (g : GraphData) (selP selC : List String) : GraphData :=
  let comps1 := if selP.isEmpty then g.exposedComponents
    else g.exposedComponents.filter (fun c => selP.contains c.providingPlugin)
  let deps1 := if selP.isEmpty then g.dependencies
    else g.dependencies.filter (fun d => selP.contains d.target)
  let deps2 := if selC.isEmpty then deps1
    else deps1.filter (fun d => selC.contains d.source)
  let comps2 := if selC.isEmpty then comps1
    else comps1.filter (fun c => c.consumers.any (fun x => selC.contains x))
  let nodes2 := g.nodes.filter (fun n =>
    comps2.any (fun c => c.providingPlugin == n.id) ||
    deps2.any (fun d => d.source == n.id))
  let comps3 := comps2.map (fun c =>
    { c with
      consumers := c.consumers.filter (fun x => deps2.any (fun d => d.source == x)) })
  { nodes := nodes2, dependencies := deps2, extensionPoints := [],
    exposedComponents := comps3 }

/-! ## LayoutEngine (`DependencyGraph.tsx`)

JavaScript `Map`s used as grouping accumulators iterate keys in first-seen
order; `dedupFirst` captures that order. -/

/-- First-seen deduplication: the key iteration order of a JavaScript `Map`
used as a grouping accumulator. -/
def dedupFirst : List String → List String
  | [] => []
  | x :: xs => x :: dedupFirst (xs.filter (fun y => !(y == x)))
termination_by l => l.length
decreasing_by
  simp only [List.length_cons]
  exact Nat.lt_succ_of_le (List.length_filter_le _ _)

/-- Keys of `componentGroupsByProvider` / `exposedComponentGroups`: the
providing plugins of the exposed components in first-seen order. -/
def exposeGroupKeys (comps : List ExposedComponent) : List String :=
  dedupFirst (comps.map (fun c => c.providingPlugin))

/-- The component ids grouped under one providing plugin, in encounter
order. -/
def exposeGroupItems (comps : List ExposedComponent) (p : String) : List String :=
  (comps.filter (fun c => c.providingPlugin == p)).map (fun c => c.id)

/-- `consumersByProvider`: the deduplicated consumers of all components of
one providing plugin, in insertion order of the JavaScript `Set`. -/
def consumerSetOf (comps : List ExposedComponent) (p : String) : List String :=
  dedupFirst (((comps.filter (fun c => c.providingPlugin == p)).map
    (fun c => c.consumers)).flatten)

/-- `Math.max(20, width * 0.02)`. -/
def exMargin (w : ℚ) : ℚ := max 20 (w * (2/100))

/-- `Math.max(180, width * 0.15)`. -/
def nodeWidthQ (w : ℚ) : ℚ := max 180 (w * (15/100))

/-- Expose-mode component spacing: `Math.max(75, height * 0.08)`, plus 20
when descriptions are shown. -/
def exComponentSpacing (opts : PanelOptions) (h : ℚ) : ℚ :=
  (max 75 (h * (8/100))) + (if opts.showDescriptions then 20 else 0)

/-- `Math.max(40, height * 0.05)`. -/
def exGroupSpacing (h : ℚ) : ℚ := max 40 (h * (5/100))

/-- Expose-mode consumer column centre:
`width - Math.max(40, width*0.04) - Math.max(180, width*0.15)/2`. -/
def exConsumerX (w : ℚ) : ℚ := w - (max 40 (w * (4/100))) - nodeWidthQ w / 2

/-- A node together with its assigned position (`NodeWithPosition`). -/
structure NodeWithPosition where
  id : String
  name : String
  type : String
  version : Option String := none
  description : Option String := none
  x : ℚ
  y : ℚ
  originalId : Option String := none
deriving DecidableEq, Repr

/-- Spread a plugin node into a positioned node. -/
def positionNode (n : PluginNode) (x y : ℚ) : NodeWithPosition :=
  { id := n.id, name := n.name, type := n.type, version := n.version,
    description := n.description, x := x, y := y }

/-- Spread a consumer node into a placement instance with the synthesized
composite id and `originalId` (`DependencyGraph.tsx` lines 146-152). -/
def positionConsumerInstance (n : PluginNode) (c p : String) (x y : ℚ) :
    NodeWithPosition :=
  { id := c ++ "-at-" ++ p, name := n.name, type := n.type,
    version := n.version, description := n.description, x := x, y := y,
    originalId := some c }

/-- The vertical position of the `i`-th of `len` consumer instances inside a
group of height `gh` starting at `y0` (lines 124-144): a single consumer is
centred; otherwise a fixed 80px spacing is used when it fits and the
available height is divided evenly when it does not. -/
def consumerYAt (y0 gh : ℚ) (len i : ℕ) : ℚ :=
  if len = 1 then y0 + gh / 2
  else
    let startY := y0 + 60
    if ((len : ℚ) - 1) * 80 ≤ gh - 120 then startY + (i : ℚ) * 80
    else startY + (i : ℚ) * ((gh - 120) / ((len : ℚ) - 1))

/-- Consumer instances of one provider group, in consumer-set order
(lines 118-155); a consumer id with no node in the graph is skipped. -/
def consumerEntries (nodes : List PluginNode) (p : String) (cx y0 gh : ℚ)
    (len : ℕ) : List String → ℕ → List NodeWithPosition
  | [], _ => []
  | c :: rest, i =>
    (match nodes.find? (fun n => n.id == c) with
     | none => []
     | some n => [positionConsumerInstance n c p cx (consumerYAt y0 gh len i)]) ++
    consumerEntries nodes p cx y0 gh len rest (i + 1)

/-- The expose-mode group loop of `calculateLayout` (lines 97-158): for each
provider group, the provider box centred on the group, then the consumer
instances, advancing the vertical cursor by group height plus gap. -/
def layoutExposeGroups (g : GraphData) (opts : PanelOptions) (w h : ℚ) :
    List String → ℚ → List NodeWithPosition
  | [], _ => []
  | p :: rest, y0 =>
    let items := exposeGroupItems g.exposedComponents p
    let gh := (items.length : ℚ) * exComponentSpacing opts h + 70
    let provEntry :=
      match g.nodes.find? (fun n => n.id == p) with
      | some n => [positionNode n (exMargin w + nodeWidthQ w / 2) (y0 + gh / 2)]
      | none => []
    let cons := consumerSetOf g.exposedComponents p
    provEntry ++ consumerEntries g.nodes p (exConsumerX w) y0 gh cons.length cons 0 ++
      layoutExposeGroups g opts w h rest (y0 + gh + exGroupSpacing h)

/-- The expose-mode branch of `calculateLayout` (lines 42-159). -/
def calculateLayoutExpose (g : GraphData) (opts : PanelOptions) (w h : ℚ) :
    List NodeWithPosition :=
  if g.nodes.isEmpty then []
  else layoutExposeGroups g opts w h (exposeGroupKeys g.exposedComponents) (exMargin w + 20)

/-- The height of one expose-mode provider group:
`componentIds.length * componentSpacing + 70`. -/
def exposeGroupHeight (g : GraphData) (opts : PanelOptions) (h : ℚ) (p : String) : ℚ :=
  ((exposeGroupItems g.exposedComponents p).length : ℚ) * exComponentSpacing opts h + 70

/-- The vertical cursor value at which the group of provider `p` starts,
scanning the group keys from cursor position `y0`. -/
def exposeGroupTopAux (g : GraphData) (opts : PanelOptions) (h : ℚ) :
    List String → ℚ → String → ℚ
  | [], y0, _ => y0
  | q :: rest, y0, p =>
    if q == p then y0
    else exposeGroupTopAux g opts h rest
      (y0 + exposeGroupHeight g opts h q + exGroupSpacing h) p

/-- The top of the expose-mode group of provider `p`. -/
def exposeGroupTop (g : GraphData) (opts : PanelOptions) (w h : ℚ) (p : String) : ℚ :=
  exposeGroupTopAux g opts h (exposeGroupKeys g.exposedComponents) (exMargin w + 20) p

/-- Whether a plugin id is an add-mode content provider: source of a
dependency whose target is an existing extension point (lines 167-174). -/
def addContentProviderB (g : GraphData) (x : String) : Bool :=
  g.dependencies.any (fun d =>
    (g.extensionPoints.any (fun ep => ep.id == d.target)) && d.source == x)

/-- Stack provider nodes down the left column by list index
(`providerNodes.forEach((node, index) => ...)`, lines 180-186). -/
def stackProviders (w h : ℚ) : List PluginNode → ℕ → List NodeWithPosition
  | [], _ => []
  | n :: rest, i =>
    positionNode n (exMargin w + 90)
        (exMargin w + 75 + (i : ℚ) * (max 70 (h * (8/100)))) ::
      stackProviders w h rest (i + 1)

/-- The add-mode branch of `calculateLayout` (lines 160-187): providers are
stacked down the left column by list index. -/
def calculateLayoutAdd (g : GraphData) (opts : PanelOptions) (w h : ℚ) :
    List NodeWithPosition :=
  if g.nodes.isEmpty then []
  else stackProviders w h (g.nodes.filter (fun n => addContentProviderB g n.id)) 0

/-- `calculateLayout` (lines 32-199), dispatching on the visualization mode. -/
def calculateLayout (g : GraphData) (opts : PanelOptions) (w h : ℚ) :
    List NodeWithPosition :=
  if opts.visualizationMode == "expose" then calculateLayoutExpose g opts w h
  else calculateLayoutAdd g opts w h

/-! ## Extension point positions and the Add-mode LinkRouter -/

/-- Position record stored per mediating entity id. -/
structure PosInfo where
  x : ℚ
  y : ℚ
  groupY : ℚ
  groupHeight : ℚ
deriving DecidableEq, Repr

/-- `65` base spacing for extension points, plus 20 when descriptions are
shown (`getExtensionPointPositions`, lines 265-269). -/
def epSpacingOf (opts : PanelOptions) : ℚ :=
  65 + (if opts.showDescriptions then 20 else 0)

/-- Keys of `extensionPointGroups`: defining plugins in first-seen order. -/
def epGroupKeys (eps : List ExtensionPoint) : List String :=
  dedupFirst (eps.map (fun ep => ep.definingPlugin))

/-- Extension point ids grouped under one defining plugin. -/
def epGroupItems (eps : List ExtensionPoint) (p : String) : List String :=
  (eps.filter (fun ep => ep.definingPlugin == p)).map (fun ep => ep.id)

/-- `Map.set`: later entries overwrite earlier ones under the same key. -/
def setPos (f : String → Option PosInfo) (k : String) (v : PosInfo) :
    String → Option PosInfo :=
  fun s => if s == k then some v else f s

/-- Position every item of one extension-point group (lines 279-286). -/
def epSetGroupItems (x cgY spacing gh : ℚ) :
    List String → ℕ → (String → Option PosInfo) → (String → Option PosInfo)
  | [], _, f => f
  | epId :: rest, i, f =>
    epSetGroupItems x cgY spacing gh rest (i + 1)
      (setPos f epId
        { x := x, y := cgY + 70 + (i : ℚ) * spacing, groupY := cgY, groupHeight := gh })

/-- The group loop of `getExtensionPointPositions` (lines 274-289). -/
def epPositionsAux (eps : List ExtensionPoint) (opts : PanelOptions) (w : ℚ) :
    List String → ℚ → (String → Option PosInfo) → (String → Option PosInfo)
  | [], _, f => f
  | p :: rest, cgY, f =>
    let items := epGroupItems eps p
    let gh := (items.length : ℚ) * epSpacingOf opts + 50
    epPositionsAux eps opts w rest (cgY + gh + 40)
      (epSetGroupItems (w - exMargin w - 280 - 10) cgY (epSpacingOf opts) gh items 0 f)

/-- `getExtensionPointPositions` (lines 243-292), as a keyed lookup. -/
def getExtensionPointPositions (g : GraphData) (opts : PanelOptions) (w : ℚ) :
    String → Option PosInfo :=
  if opts.visualizationMode == "expose" then fun _ => none
  else
    epPositionsAux g.extensionPoints opts w (epGroupKeys g.extensionPoints)
      (exMargin w + 50) (fun _ => none)

/-- One routed Add-mode connector: the cubic path
`M startX startY C c1x c1y, c2x c2y, endX endY`. -/
structure Connector where
  sourceId : String
  definingPlugin : String
  startX : ℚ
  startY : ℚ
  c1x : ℚ
  c1y : ℚ
  c2x : ℚ
  c2y : ℚ
  endX : ℚ
  endY : ℚ
deriving DecidableEq, Repr

/-- Dependencies whose target matches an extension point; only these are
grouped by `renderDependencyLinks` (lines 403-419). -/
def qualDeps (g : GraphData) : List PluginDependency :=
  g.dependencies.filter (fun d => (depTargetDef g.extensionPoints d).isSome)

/-- Outer keys of `groupedDeps`: sources in first-seen order. -/
def sourceKeys (g : GraphData) : List String :=
  dedupFirst ((qualDeps g).map (fun d => d.source))

/-- Inner keys of `groupedDeps` for one source: defining plugins in
first-seen order. -/
def defKeysFor (g : GraphData) (s : String) : List String :=
  dedupFirst (((qualDeps g).filter (fun d => d.source == s)).filterMap
    (depTargetDef g.extensionPoints))

/-- The targets collected for one `(source, definingPlugin)` pair. -/
def targetsFor (g : GraphData) (s dp : String) : List String :=
  (((qualDeps g).filter (fun d => d.source == s)).filter
    (fun d => depTargetDef g.extensionPoints d == some dp)).map (fun d => d.target)

/-- Build one consolidated connector (lines 438-453): anchored at the
provider's right edge and the group's vertical centre, with the two control
points at 60% of the way from each endpoint towards the horizontal
midpoint. -/
def mkConnector (s dp : String) (sn : NodeWithPosition) (pos : PosInfo) (w : ℚ) :
    Connector :=
  let startX := sn.x + nodeWidthQ w / 2
  let startY := sn.y
  let endX := pos.x - 20
  let endY := pos.groupY + pos.groupHeight / 2
  let midX := (startX + endX) / 2
  { sourceId := s, definingPlugin := dp,
    startX := startX, startY := startY,
    c1x := startX + (midX - startX) * (6/10), c1y := startY,
    c2x := endX - (endX - midX) * (6/10), c2y := endY,
    endX := endX, endY := endY }

/-- The Add-mode `renderDependencyLinks` (lines 395-478): one connector per
grouped `(source, definingPlugin)` pair, skipped when the source has no
positioned node, targeting the position of the group's first extension
point. -/
def renderAddLinks (g : GraphData) (nodes : List NodeWithPosition)
    (opts : PanelOptions) (w : ℚ) : List Connector :=
  (sourceKeys g).flatMap (fun s =>
    match nodes.find? (fun n => n.id == s) with
    | none => []
    | some sn =>
      (defKeysFor g s).flatMap (fun dp =>
        match (targetsFor g s dp).head? with
        | none => []
        | some t0 =>
          match getExtensionPointPositions g opts w t0 with
          | none => []
          | some pos => [mkConnector s dp sn pos w]))

/-! ## GraphBuilder (`dataProcessor.ts`)

The builder consumes the bundled `data.json` manifest, modelled as an
ordered association list from plugin id to plugin record.  Record blocks
that may be absent in the JSON are `Option`s; an unguarded JavaScript
property access on an absent block is a thrown `TypeError`, modelled in
`Except`. -/

/-- A declared extension point in a plugin manifest. -/
structure ExtensionPointDecl where
  id : String
  title : Option String := none
  description : Option String := none
deriving DecidableEq, Repr

/-- One `addedLinks` / `addedComponents` / `addedFunctions` entry. -/
structure AddedItem where
  targets : Option (List String) := none
deriving DecidableEq, Repr

/-- A declared exposed component in a plugin manifest. -/
structure ExposedComponentDecl where
  id : String
  title : Option String := none
  description : Option String := none
deriving DecidableEq, Repr

/-- The `extensions` block of a plugin record. -/
structure ExtensionsBlock where
  addedLinks : Option (List AddedItem) := none
  addedComponents : Option (List AddedItem) := none
  addedFunctions : Option (List AddedItem) := none
  extensionPoints : Option (List ExtensionPointDecl) := none
  exposedComponents : Option (List ExposedComponentDecl) := none
deriving DecidableEq, Repr

/-- The `extensions` sub-block of a plugin record's `dependencies` block. -/
structure DependenciesExtensions where
  exposedComponents : Option (List String) := none
deriving DecidableEq, Repr

/-- The `dependencies` block of a plugin record. -/
structure DependenciesBlock where
  extensions : Option DependenciesExtensions := none
deriving DecidableEq, Repr

/-- One plugin record of `data.json`. -/
structure PluginInfo where
  version : Option String := none
  extensions : Option ExtensionsBlock := none
  dependencies : Option DependenciesBlock := none
deriving DecidableEq, Repr

/-- The bundled `data.json`: plugin id to record, in object-key order. -/
abbrev PluginData := List (String × PluginInfo)

/-- The extension points a plugin record explicitly declares (empty when the
record has no `extensions` block or no `extensionPoints` list). -/
def declaredEPs (info : PluginInfo) : List ExtensionPointDecl :=
  match info.extensions with
  | some ext => ext.extensionPoints.getD []
  | none => []

/-- JavaScript truthiness test `x && x.length > 0` on an optional list. -/
def isNonemptyOpt {α : Type} (o : Option (List α)) : Bool :=
  match o with
  | some l => !l.isEmpty
  | none => false

/-- Result of `findExtensionPointDetails`. -/
structure EPDetails where
  definingPlugin : String
  title : Option String := none
  description : Option String := none
deriving DecidableEq, Repr

/-- The explicit-declarer scan of `findExtensionPointDetails` (lines
1167-1177): the first plugin whose `extensionPoints` manifest list declares
the target; faults on a record with no `extensions` block. -/
def findDeclarer : PluginData → String → Except String (Option (String × ExtensionPointDecl))
  | [], _ => .ok none
  | (pid, info) :: rest, target =>
    match info.extensions with
    | none => .error "TypeError: cannot read extensionPoints of undefined"
    | some ext =>
      match (ext.extensionPoints.getD []).find? (fun ep => ep.id == target) with
      | some ep => .ok (some (pid, ep))
      | none => findDeclarer rest target

/-- `findExtensionPointDetails` (lines 1162-1202). -/
def findExtensionPointDetails (pd : PluginData) (target : String) :
    Except String EPDetails :=
  match findDeclarer pd target with
  | .error e => .error e
  | .ok (some (pid, ep)) =>
    .ok { definingPlugin := pid, title := ep.title, description := ep.description }
  | .ok none =>
    if jsStartsWith target "grafana/" then .ok { definingPlugin := "grafana-core" }
    else
      let seg := firstSegment target
      if pd.any (fun e => e.1 == seg) then .ok { definingPlugin := seg }
      else if pd.any (fun e => e.1 == seg ++ "-app") then
        .ok { definingPlugin := seg ++ "-app" }
      else .ok { definingPlugin := "grafana-core" }

/-- Accumulator of the add-mode builder pass. -/
structure BuildState where
  nodes : List PluginNode
  dependencies : List PluginDependency
  extensionPoints : List ExtensionPoint
deriving DecidableEq, Repr

/-- `Map.set` guarded by `Map.has` on the node map. -/
def addNodeIfAbsent (ns : List PluginNode) (n : PluginNode) : List PluginNode :=
  if ns.any (fun m => m.id == n.id) then ns else ns ++ [n]

/-- Append a provider to an extension point unless already present
(`extensionPoint.providers.push`, guarded by `includes`). -/
def pushProviderIfAbsent (eps : List ExtensionPoint) (target pid : String) :
    List ExtensionPoint :=
  eps.map (fun ep =>
    if ep.id == target && !(ep.providers.contains pid) then
      { ep with providers := ep.providers ++ [pid] }
    else ep)

/-- Process one target of one added link/component/function (lines 811-899):
push the dependency, synthesize the extension point when absent, then
register the provider. -/
def processOneTarget (pd : PluginData) (pid kindWord epType : String)
    (st : BuildState) (target : String) : Except String BuildState := do
  let deps' := st.dependencies ++
    [{ source := pid, target := target, type := "extends",
       description := getDisplayName pid ++ " provides " ++ kindWord ++ " to " ++ target }]
  let details ← findExtensionPointDetails pd target
  let eps' :=
    if details.definingPlugin != "" &&
        !(st.extensionPoints.any (fun ep => ep.id == target)) then
      st.extensionPoints ++
        [{ id := target, definingPlugin := details.definingPlugin, providers := [],
           extensionType := epType, title := details.title,
           description := details.description }]
    else st.extensionPoints
  pure { st with dependencies := deps',
                 extensionPoints := pushProviderIfAbsent eps' target pid }

/-- Process all items of one added-extension kind. -/
def processItems (pd : PluginData) (pid kindWord epType : String)
    (items : List AddedItem) (st : BuildState) : Except String BuildState :=
  items.foldlM (fun st item =>
    (item.targets.getD []).foldlM (processOneTarget pd pid kindWord epType) st) st

/-- Process one plugin record of the add-mode builder pass (lines 758-901);
faults when the record has no `extensions` block. -/
def processEntryAdd (pd : PluginData) (st : BuildState)
    (entry : String × PluginInfo) : Except String BuildState :=
  match entry.2.extensions with
  | none => .error "TypeError: cannot read addedLinks of undefined"
  | some ext =>
    let pid := entry.1
    let isProvider := isNonemptyOpt ext.addedLinks || isNonemptyOpt ext.addedComponents ||
      isNonemptyOpt ext.addedFunctions
    let isConsumer := isNonemptyOpt ext.extensionPoints
    let nodes1 :=
      if isProvider || isConsumer then
        addNodeIfAbsent st.nodes
          { id := pid, name := getDisplayName pid, type := getPluginType pid,
            version := entry.2.version,
            description := some
              (if isProvider && isConsumer then "Provides and consumes extension content"
               else if isProvider then "Provides content to extension points"
               else "Defines extension points") }
      else st.nodes
    let eps1 :=
      if isConsumer then
        (ext.extensionPoints.getD []).foldl (fun eps epd =>
          if eps.any (fun ep => ep.id == epd.id) then eps
          else eps ++
            [{ id := epd.id, definingPlugin := pid, providers := [],
               extensionType := "link", title := epd.title,
               description := epd.description }]) st.extensionPoints
      else st.extensionPoints
    let st1 : BuildState :=
      { nodes := nodes1, dependencies := st.dependencies, extensionPoints := eps1 }
    if isProvider then do
      let st2 ← processItems pd pid "link" "link" (ext.addedLinks.getD []) st1
      let st3 ← processItems pd pid "component" "component" (ext.addedComponents.getD []) st2
      processItems pd pid "function" "function" (ext.addedFunctions.getD []) st3
    else pure st1

/-- The post-pass adding nodes for defining plugins (lines 903-914). -/
def addDefiningNodes (st : BuildState) : BuildState :=
  { st with
    nodes := st.extensionPoints.foldl (fun ns ep =>
      if ns.any (fun m => m.id == ep.definingPlugin) then ns
      else ns ++
        [{ id := ep.definingPlugin, name := getDisplayName ep.definingPlugin,
           type := getPluginType ep.definingPlugin,
           description := some "Defines extension points" }]) st.nodes }

/-- The add-mode graph construction of `processPluginDataToGraph`
(lines 753-914), without the trailing filter. -/
def buildAddGraph (pd : PluginData) : Except String GraphData := do
  let st ← pd.foldlM (processEntryAdd pd) ⟨[], [], []⟩
  let st := addDefiningNodes st
  pure { nodes := st.nodes, dependencies := st.dependencies,
         extensionPoints := st.extensionPoints, exposedComponents := [] }

/-- Accumulator of the expose-mode builder passes. -/
structure ExposeState where
  nodes : List PluginNode
  dependencies : List PluginDependency
  exposedComponents : List ExposedComponent
deriving DecidableEq, Repr

/-- `Map.set` with overwrite on the exposed-component map (line 1010 sets
unconditionally). -/
def setComp (comps : List ExposedComponent) (c : ExposedComponent) :
    List ExposedComponent :=
  if comps.any (fun x => x.id == c.id) then
    comps.map (fun x => if x.id == c.id then c else x)
  else comps ++ [c]

/-- First expose-builder pass over one record (lines 1003-1031): collect
declared exposed components; faults when the record has no `extensions`
block. -/
def exposePass1Entry (st : ExposeState) (entry : String × PluginInfo) :
    Except String ExposeState :=
  match entry.2.extensions with
  | none => .error "TypeError: cannot read exposedComponents of undefined"
  | some ext =>
    let pid := entry.1
    if isNonemptyOpt ext.exposedComponents then
      .ok ((ext.exposedComponents.getD []).foldl (fun st decl =>
        if decl.id != "" && jsTrim decl.id != "" then
          let comp : ExposedComponent :=
            { id := decl.id,
              title :=
                match decl.title with
                | some t => if t == "" then decl.id else t
                | none => decl.id,
              description :=
                match decl.description with
                | some d => if d == "" then "Exposed component" else d
                | none => "Exposed component",
              providingPlugin := pid, consumers := [] }
          { st with
            exposedComponents := setComp st.exposedComponents comp,
            nodes := addNodeIfAbsent st.nodes
              { id := pid, name := getDisplayName pid, type := getPluginType pid,
                version := entry.2.version,
                description := some "Exposes components to other plugins" } }
        else st) st)
    else .ok st

/-- Second expose-builder pass over one record (lines 1034-1075): register
consumers and dependencies; faults when the record has no `dependencies`
block (`pluginInfo.dependencies` is dereferenced without a guard). -/
def exposePass2Entry (st : ExposeState) (entry : String × PluginInfo) :
    Except String ExposeState :=
  match entry.2.dependencies with
  | none => .error "TypeError: cannot read extensions of undefined"
  | some depBlock =>
    let pid := entry.1
    let declared := depBlock.extensions.bind (fun e => e.exposedComponents)
    if isNonemptyOpt declared then
      .ok ((declared.getD []).foldl (fun st cid =>
        if jsTrim cid != "" then
          match st.exposedComponents.find? (fun c => c.id == cid) with
          | some comp =>
            let comp' :=
              if comp.consumers.contains pid then comp
              else { comp with consumers := comp.consumers ++ [pid] }
            { nodes := addNodeIfAbsent st.nodes
                { id := pid, name := getDisplayName pid, type := getPluginType pid,
                  version := entry.2.version,
                  description := some "Consumes exposed components from other plugins" },
              dependencies := st.dependencies ++
                [{ source := comp.providingPlugin, target := pid, type := "depends",
                   description := getDisplayName pid ++ " consumes " ++ comp.title ++
                     " from " ++ getDisplayName comp.providingPlugin }],
              exposedComponents :=
                st.exposedComponents.map (fun x => if x.id == cid then comp' else x) }
          | none => st
        else st) st)
    else .ok st

/-- `processPluginDataToExposeGraph` (lines 995-1159): the two builder
passes followed by the expose-mode filter. -/
def processPluginDataToExposeGraph (pd : PluginData) (options : PanelOptions) :
    Except String GraphData := do
  let st1 ← pd.foldlM exposePass1Entry ⟨[], [], []⟩
  let st2 ← pd.foldlM exposePass2Entry st1
  pure (exposeFilter
    { nodes := st2.nodes, dependencies := st2.dependencies,
      extensionPoints := [], exposedComponents := st2.exposedComponents }
    options.selectedContentProviders options.selectedContentConsumers)

/-- `processPluginDataToGraph` (lines 745-992): route to the expose
processor in expose mode, otherwise build and filter the add-mode graph. -/
def processPluginDataToGraph (pd : PluginData) (options : PanelOptions) :
    Except String GraphData :=
  if options.visualizationMode == "expose" then
    processPluginDataToExposeGraph pd options
  else do
    let g ← buildAddGraph pd
    pure (addFilter g options.selectedContentProviders options.selectedContentConsumers)

/-- The panel-data argument of `processTableDataToGraph`; its content is
never inspected. -/
structure PanelData where
  series : List String := []
deriving DecidableEq, Repr

/-- `processTableDataToGraph` (lines 1230-1233): ignores the panel data and
delegates to `processPluginDataToGraph`. -/
def processTableDataToGraph (pd : PluginData) (data : PanelData)
    (options : PanelOptions) : Except String GraphData :=
  processPluginDataToGraph pd options

/-- Modelled from the spec (section 4.1): the inference order for the
defining plugin of an undeclared extension-point id, used to compare the
code's `findExtensionPointDetails` against the specified precedence. -/
def specInferredDefiningPlugin (knownIds : List String) (target : String) : String :=
  if jsStartsWith target "grafana/" then "grafana-core"
  else
    let seg := firstSegment target
    if knownIds.contains seg then seg
    else if knownIds.contains (seg ++ "-app") then seg ++ "-app"
    else "grafana-core"

/-! ## Concrete graphs used to refute expose-mode properties

`exampleExposeGraph` is shaped exactly like a builder output in Expose
mode: plugin `plug-a` exposes component `comp1`, plugin `plug-b` consumes
it, and the builder records the dependency with the providing plugin as
`source` and the consuming plugin as `target`. -/

def exampleExposeGraph : GraphData :=
  { nodes :=
      [ { id := "plug-a", name := "Plug A", type := "app",
          description := some "Exposes components to other plugins" },
        { id := "plug-b", name := "Plug B", type := "app",
          description := some "Consumes exposed components from other plugins" } ],
    dependencies :=
      [ { source := "plug-a", target := "plug-b", type := "depends" } ],
    extensionPoints := [],
    exposedComponents :=
      [ { id := "comp1", title := "Component 1", description := "Exposed component",
          providingPlugin := "plug-a", consumers := ["plug-b"] } ] }

/-- A minimal Add-mode graph: `prov-a` feeds the single extension point
`def-b/ep1` defined by `def-b`. -/
def exampleAddGraph : GraphData :=
  { nodes :=
      [ { id := "prov-a", name := "Prov A", type := "app" },
        { id := "def-b", name := "Def B", type := "app" } ],
    dependencies :=
      [ { source := "prov-a", target := "def-b/ep1", type := "extends" } ],
    extensionPoints :=
      [ { id := "def-b/ep1", definingPlugin := "def-b", providers := ["prov-a"],
          extensionType := "link" } ],
    exposedComponents := [] }

/-- The provider placement `calculateLayoutExpose` produces for
`exampleExposeGraph` on a 1000x500 canvas. -/
def exampleProviderPlacement : NodeWithPosition :=
  { id := "plug-a", name := "Plug A", type := "app",
    description := some "Exposes components to other plugins",
    x := 110, y := 225/2 }

/-- The consumer placement `calculateLayoutExpose` produces for
`exampleExposeGraph` on a 1000x500 canvas. -/
def exampleConsumerPlacement : NodeWithPosition :=
  { id := "plug-b-at-plug-a", name := "Plug B", type := "app",
    description := some "Consumes exposed components from other plugins",
    x := 870, y := 225/2, originalId := some "plug-b" }

/-- A builder-shaped Add-mode graph with a declared extension point that no
plugin provides to: the builder creates declared points with an empty
provider list (`dataProcessor.ts` lines 791-805). -/
def exampleDeclaredOnlyGraph : GraphData :=
  { nodes :=
      [ { id := "plug-x", name := "Plug X", type := "app",
          description := some "Defines extension points" } ],
    dependencies := [],
    extensionPoints :=
      [ { id := "plug-x/ep", definingPlugin := "plug-x", providers := [],
          extensionType := "link" } ],
    exposedComponents := [] }

/-- A positioned node list for routing over `exampleAddGraph`. -/
def exampleRouterNodes : List NodeWithPosition :=
  [ { id := "prov-a", name := "Prov A", type := "app", x := 110, y := 95 } ]

/-- A manifest whose single record has an `extensions` block but no
`dependencies` block. -/
def examplePluginDataNoDeps : PluginData :=
  [ ("plug-a",
     { version := some "1.0.0",
       extensions := some { exposedComponents := some [{ id := "comp1" }] },
       dependencies := none }) ]

/-- A well-formed two-plugin manifest: `host-app` declares the extension
point `host-app/toolbar/v1`, `other-app` adds a link targeting it and an
undeclared id. -/
def examplePluginData : PluginData :=
  [ ("host-app",
     { version := some "1.0.0",
       extensions := some
         { extensionPoints := some
             [{ id := "host-app/toolbar/v1", title := some "Toolbar",
                description := some "Toolbar slot" }] },
       dependencies := some {} }),
    ("other-app",
     { version := some "2.0.0",
       extensions := some
         { addedLinks := some [{ targets := some ["host-app/toolbar/v1", "third/slot"] }] },
       dependencies := some {} }) ]

/-! ## Lemmas about the Add-mode filter -/

theorem find?_filter_of_pred {α : Type} {l : List α} {p q : α → Bool} {a : α}
    (h : l.find? q = some a) (hp : p a = true) :
    (l.filter p).find? q = some a := by
  induction l with
  | nil => simp at h
  | cons x xs ih =>
    rw [List.find?_cons] at h
    by_cases hq : q x
    · simp [hq] at h
      subst h
      simp [List.filter_cons, hp, List.find?_cons, hq]
    · simp [hq] at h
      by_cases hpx : p x <;>
        simp [List.filter_cons, hpx, List.find?_cons, hq, ih h]

theorem addFilterC_extensionPoints (g : GraphData) (C : List String) :
    (addFilterC g C).extensionPoints =
      g.extensionPoints.filter (fun ep => consumersToShow g C ep.definingPlugin) := rfl

theorem addFilterC_dependencies (g : GraphData) (C : List String) :
    (addFilterC g C).dependencies =
      g.dependencies.filter (fun d =>
        (addFilterC g C).extensionPoints.any (fun ep => ep.id == d.target)) := rfl

theorem addFilterC_nodes (g : GraphData) (C : List String) :
    (addFilterC g C).nodes =
      g.nodes.filter (fun n =>
        consumersToShow g C n.id ||
        (addFilterC g C).dependencies.any (fun d => d.source == n.id)) := rfl

theorem addFilterC_exposedComponents (g : GraphData) (C : List String) :
    (addFilterC g C).exposedComponents = [] := rfl

theorem mem_eps_addFilterC {g : GraphData} {C : List String} {ep : ExtensionPoint} :
    ep ∈ (addFilterC g C).extensionPoints ↔
      ep ∈ g.extensionPoints ∧ consumersToShow g C ep.definingPlugin = true := by
  rw [addFilterC_extensionPoints, List.mem_filter]

theorem mem_deps_addFilterC {g : GraphData} {C : List String} {d : PluginDependency} :
    d ∈ (addFilterC g C).dependencies ↔
      d ∈ g.dependencies ∧
        ((addFilterC g C).extensionPoints.any (fun ep => ep.id == d.target)) = true := by
  rw [addFilterC_dependencies, List.mem_filter]

theorem mem_nodes_addFilterC {g : GraphData} {C : List String} {n : PluginNode} :
    n ∈ (addFilterC g C).nodes ↔
      n ∈ g.nodes ∧
        (consumersToShow g C n.id ||
          (addFilterC g C).dependencies.any (fun d => d.source == n.id)) = true := by
  rw [addFilterC_nodes, List.mem_filter]

/-- Stability of the reachable-consumer set: if `x` is an active consumer
of `(deps, eps)` and the filter condition holds of every active consumer,
then `x` is still an active consumer after eps are filtered by the
condition and deps are filtered to targets surviving in the filtered eps. -/
theorem activeConsumersB_preserved {deps : List PluginDependency}
    {eps : List ExtensionPoint} {q : String → Bool}
    (hcond : ∀ y, activeConsumersB deps eps y = true → q y = true)
    {x : String} (h : activeConsumersB deps eps x = true) :
    activeConsumersB
      (deps.filter (fun d =>
        (eps.filter (fun ep => q ep.definingPlugin)).any (fun ep => ep.id == d.target)))
      (eps.filter (fun ep => q ep.definingPlugin)) x = true := by
  rw [activeConsumersB, List.any_eq_true] at h
  obtain ⟨d, hd, hdx⟩ := h
  rcases hfind : eps.find? (fun ep => ep.id == d.target) with _ | ep'
  · rw [depTargetDef, hfind] at hdx
    simp at hdx
  · rw [depTargetDef, hfind] at hdx
    simp at hdx
    have hdefx : ep'.definingPlugin = x := hdx
    have hcondep : q ep'.definingPlugin = true := by
      rw [hdefx]
      exact hcond x (by
        rw [activeConsumersB, List.any_eq_true]
        exact ⟨d, hd, by rw [depTargetDef, hfind]; simp [hdefx]⟩)
    have hfind2 : (eps.filter (fun ep => q ep.definingPlugin)).find?
        (fun ep => ep.id == d.target) = some ep' :=
      find?_filter_of_pred hfind hcondep
    have hq : (ep'.id == d.target) = true := by
      have := List.find?_some hfind
      simpa using this
    have hmem2 : d ∈ deps.filter (fun d =>
        (eps.filter (fun ep => q ep.definingPlugin)).any (fun ep => ep.id == d.target)) := by
      rw [List.mem_filter]
      refine ⟨hd, ?_⟩
      rw [List.any_eq_true]
      exact ⟨ep', List.mem_of_find?_eq_some hfind2, hq⟩
    rw [activeConsumersB, List.any_eq_true]
    exact ⟨d, hmem2, by rw [depTargetDef, hfind2]; simp [hdefx]⟩

theorem map_eq_self_of_mem {α : Type} {l : List α} {f : α → α}
    (h : ∀ a ∈ l, f a = a) : l.map f = l := by
  induction l with
  | nil => rfl
  | cons x xs ih =>
    simp only [List.map_cons, h x (by simp)]
    rw [ih (fun a ha => h a (by simp [ha]))]

theorem trimProviders_idem (P : List String) (ep : ExtensionPoint) :
    trimProviders P (trimProviders P ep) = trimProviders P ep := by
  simp [trimProviders, List.filter_filter]

theorem addFilterP_cons_extensionPoints (g : GraphData) (p : String) (ps : List String) :
    (addFilterP g (p :: ps)).extensionPoints =
      (g.extensionPoints.map (trimProviders (p :: ps))).filter
        (fun ep => !ep.providers.isEmpty) := rfl

theorem addFilterP_cons_dependencies (g : GraphData) (p : String) (ps : List String) :
    (addFilterP g (p :: ps)).dependencies =
      g.dependencies.filter (fun d => (p :: ps).contains d.source) := rfl

theorem addFilterP_cons_nodes (g : GraphData) (p : String) (ps : List String) :
    (addFilterP g (p :: ps)).nodes =
      g.nodes.filter (fun n =>
        (p :: ps).contains n.id ||
        (addFilterP g (p :: ps)).extensionPoints.any
          (fun ep => ep.definingPlugin == n.id)) := rfl

/-- The provider step leaves its own output (after the consumer step)
unchanged. -/
theorem addFilterP_stable (g : GraphData) (P C : List String) :
    addFilterP (addFilter g P C) P = addFilter g P C := by
  rcases P with _ | ⟨p, ps⟩
  · rfl
  · show addFilterP (addFilterC (addFilterP g (p :: ps)) C) (p :: ps) =
      addFilterC (addFilterP g (p :: ps)) C
    set g1 := addFilterP g (p :: ps) with hg1
    set out := addFilterC g1 C with hout
    have hF1 : ∀ d ∈ out.dependencies, ((p :: ps).contains d.source) = true := by
      intro d hd
      have h1 := (mem_deps_addFilterC.mp hd).1
      rw [hg1, addFilterP_cons_dependencies, List.mem_filter] at h1
      exact h1.2
    have hF2 : ∀ ep ∈ out.extensionPoints,
        trimProviders (p :: ps) ep = ep ∧ (!ep.providers.isEmpty) = true := by
      intro ep hep
      have h1 := (mem_eps_addFilterC.mp hep).1
      rw [hg1, addFilterP_cons_extensionPoints, List.mem_filter] at h1
      obtain ⟨hmap, hne⟩ := h1
      rw [List.mem_map] at hmap
      obtain ⟨ep0, _, heq⟩ := hmap
      exact ⟨by rw [← heq, trimProviders_idem], hne⟩
    have hF3 : ∀ n ∈ out.nodes,
        ((p :: ps).contains n.id ||
          out.extensionPoints.any (fun ep => ep.definingPlugin == n.id)) = true := by
      intro n hn
      obtain ⟨hn1, hcond⟩ := mem_nodes_addFilterC.mp hn
      rw [hg1, addFilterP_cons_nodes, List.mem_filter] at hn1
      obtain ⟨hng, hcond1⟩ := hn1
      rw [Bool.or_eq_true] at hcond ⊢
      rcases hcond with hc | hact
      · rw [Bool.or_eq_true] at hcond1
        rcases hcond1 with hin | hdef
        · exact Or.inl hin
        · rw [List.any_eq_true] at hdef
          obtain ⟨ep, hepg1, hepdef⟩ := hdef
          refine Or.inr ?_
          rw [List.any_eq_true]
          refine ⟨ep, ?_, hepdef⟩
          rw [mem_eps_addFilterC]
          refine ⟨hepg1, ?_⟩
          have hdefn : ep.definingPlugin = n.id := by simpa using hepdef
          rw [hdefn]
          exact hc
      · rw [List.any_eq_true] at hact
        obtain ⟨d, hdout, hds⟩ := hact
        have hsrc : d.source = n.id := by simpa using hds
        exact Or.inl (hsrc ▸ hF1 d hdout)
    have hepsmap : out.extensionPoints.map (trimProviders (p :: ps)) =
        out.extensionPoints :=
      map_eq_self_of_mem (fun ep h => (hF2 ep h).1)
    have heps : (out.extensionPoints.map (trimProviders (p :: ps))).filter
        (fun ep => !ep.providers.isEmpty) = out.extensionPoints := by
      rw [hepsmap]
      exact List.filter_eq_self.mpr (fun ep h => (hF2 ep h).2)
    have hdeps : out.dependencies.filter (fun d => (p :: ps).contains d.source) =
        out.dependencies := List.filter_eq_self.mpr hF1
    have hnodes : out.nodes.filter (fun n =>
        (p :: ps).contains n.id ||
        out.extensionPoints.any (fun ep => ep.definingPlugin == n.id)) = out.nodes :=
      List.filter_eq_self.mpr hF3
    have hrec : addFilterP out (p :: ps) =
        { nodes := out.nodes.filter (fun n =>
            (p :: ps).contains n.id ||
            ((out.extensionPoints.map (trimProviders (p :: ps))).filter
              (fun ep => !ep.providers.isEmpty)).any
                (fun ep => ep.definingPlugin == n.id)),
          dependencies := out.dependencies.filter (fun d => (p :: ps).contains d.source),
          extensionPoints := (out.extensionPoints.map (trimProviders (p :: ps))).filter
            (fun ep => !ep.providers.isEmpty),
          exposedComponents := out.exposedComponents } := rfl
    rw [hrec, heps, hdeps, hnodes]

/-- The consumer step leaves the filter's output unchanged. -/
theorem addFilterC_stable (g : GraphData) (P C : List String) :
    addFilterC (addFilter g P C) C = addFilter g P C := by
  show addFilterC (addFilterC (addFilterP g P) C) C = addFilterC (addFilterP g P) C
  set g1 := addFilterP g P with hg1
  set out := addFilterC g1 C with hout
  have hG1 : ∀ ep ∈ out.extensionPoints,
      consumersToShow out C ep.definingPlugin = true := by
    intro ep hep
    obtain ⟨hep1, hc⟩ := mem_eps_addFilterC.mp hep
    rcases C with _ | ⟨c, cs⟩
    · show activeConsumersB out.dependencies out.extensionPoints ep.definingPlugin = true
      exact activeConsumersB_preserved (q := consumersToShow g1 [])
        (fun y hy => hy) hc
    · exact hc
  have hG2 : ∀ d ∈ out.dependencies,
      (out.extensionPoints.any (fun ep => ep.id == d.target)) = true :=
    fun d hd => (mem_deps_addFilterC.mp hd).2
  have hG3 : ∀ n ∈ out.nodes,
      (consumersToShow out C n.id ||
        out.dependencies.any (fun d => d.source == n.id)) = true := by
    intro n hn
    obtain ⟨hn1, hcond⟩ := mem_nodes_addFilterC.mp hn
    rw [Bool.or_eq_true] at hcond ⊢
    rcases hcond with hc | hact
    · rcases C with _ | ⟨c, cs⟩
      · refine Or.inl ?_
        show activeConsumersB out.dependencies out.extensionPoints n.id = true
        exact activeConsumersB_preserved (q := consumersToShow g1 [])
          (fun y hy => hy) hc
      · exact Or.inl hc
    · exact Or.inr hact
  have heps2 : out.extensionPoints.filter
      (fun ep => consumersToShow out C ep.definingPlugin) = out.extensionPoints :=
    List.filter_eq_self.mpr hG1
  have hdeps2 : out.dependencies.filter
      (fun d => out.extensionPoints.any (fun ep => ep.id == d.target)) =
      out.dependencies := List.filter_eq_self.mpr hG2
  have hnodes2 : out.nodes.filter (fun n =>
      consumersToShow out C n.id ||
      out.dependencies.any (fun d => d.source == n.id)) = out.nodes :=
    List.filter_eq_self.mpr hG3
  have hrec : addFilterC out C =
      { nodes := out.nodes.filter (fun n =>
          consumersToShow out C n.id ||
          (out.dependencies.filter (fun d =>
            (out.extensionPoints.filter
              (fun ep => consumersToShow out C ep.definingPlugin)).any
                (fun ep => ep.id == d.target))).any (fun d => d.source == n.id)),
        dependencies := out.dependencies.filter (fun d =>
          (out.extensionPoints.filter
            (fun ep => consumersToShow out C ep.definingPlugin)).any
              (fun ep => ep.id == d.target)),
        extensionPoints := out.extensionPoints.filter
          (fun ep => consumersToShow out C ep.definingPlugin),
        exposedComponents := [] } := rfl
  rw [hrec, heps2, hdeps2, hnodes2, hout]
  rfl

/-! ## Claim C2 theorem -/

/-- Claim C2 (amended): the Add-mode cascading filter is idempotent — for
every graph and every pair of selection lists, re-running `addFilter` on its
own output with the same selections returns the output unchanged.  (The
expose-mode half of the original claim is refuted by
`exposeFilter_not_idempotent`.) -/
theorem addFilter_idempotent (g : GraphData) (P C : List String) :
    addFilter (addFilter g P C) P C = addFilter g P C := by
  show addFilterC (addFilterP (addFilter g P C) P) C = addFilter g P C
  rw [addFilterP_stable]
  exact addFilterC_stable g P C

/-! ## Claim C1 -/

/-- Claim C1 (refutation of the expose half, supporting its `code_bug`
status): on a builder-shaped expose graph whose single dependency has the
selected provider `plug-a` as source — and whose mediating component
survives the provider filter — the filter nevertheless drops the
dependency, because it filters expose-mode dependencies on `dep.target`
instead of `dep.source`. -/
theorem exposeFilter_drops_selected_source_dependency :
    exampleExposeGraph.dependencies =
      [{ source := "plug-a", target := "plug-b", type := "depends" }] ∧
    ((exposeFilter exampleExposeGraph ["plug-a"] []).exposedComponents.any
        (fun c => c.id == "comp1")) = true ∧
    (exposeFilter exampleExposeGraph ["plug-a"] []).dependencies = [] := by
  decide

/-! ## Claim C2 -/

/-- Claim C2 (counterexample): the expose-mode filter is not idempotent —
with consumer selection `plug-b`, the first pass keeps component `comp1`
but trims its consumer list to empty, so a second pass drops the component
(and with it the provider node). -/
theorem exposeFilter_not_idempotent :
    exposeFilter (exposeFilter exampleExposeGraph [] ["plug-b"]) [] ["plug-b"] ≠
      exposeFilter exampleExposeGraph [] ["plug-b"] := by
  decide

/-! ## Claim C3 -/

/-- Claim C3 (counterexample): after the expose-mode filter with both
selections empty, the surviving dependency's target `plug-b` has no
surviving node, and the surviving component is left with zero consumers. -/
theorem exposeFilter_orphan_violation :
    ((exposeFilter exampleExposeGraph [] []).dependencies.any
        (fun d => d.target == "plug-b")) = true ∧
    ((exposeFilter exampleExposeGraph [] []).nodes.all
        (fun n => !(n.id == "plug-b"))) = true ∧
    ((exposeFilter exampleExposeGraph [] []).exposedComponents.any
        (fun c => c.consumers.isEmpty)) = true := by
  decide

/-! ## Claim C3 theorem -/

/-- Claim C3 (amended): in Add mode, for graphs in which every dependency
source is the id of some node, every surviving dependency's source is the
id of a surviving node and its target the id of a surviving extension
point; and when the provider selection is non-empty, every surviving
extension point keeps a non-empty provider list.  With an empty provider
selection the provider-retention half fails even on builder-shaped input —
the third conjunct exhibits a declared, provider-less extension point that
survives the filter with zero providers.  (The expose-mode half of the
original claim is refuted by `exposeFilter_orphan_violation`.) -/
theorem addFilter_orphan_invariant (g : GraphData) (P C : List String)
    (hsrc : ∀ d ∈ g.dependencies, ∃ n ∈ g.nodes, n.id = d.source) :
    (∀ d ∈ (addFilter g P C).dependencies,
      (∃ n ∈ (addFilter g P C).nodes, n.id = d.source) ∧
      ∃ ep ∈ (addFilter g P C).extensionPoints, ep.id = d.target) ∧
    (P ≠ [] → ∀ ep ∈ (addFilter g P C).extensionPoints, ep.providers ≠ []) ∧
    ∃ ep ∈ (addFilter exampleDeclaredOnlyGraph [] ["plug-x"]).extensionPoints,
      ep.providers = [] := by
  have hunfold : addFilter g P C = addFilterC (addFilterP g P) C := rfl
  rw [hunfold]
  have hdepsub : ∀ d ∈ (addFilterP g P).dependencies,
      d ∈ g.dependencies ∧ (P ≠ [] → P.contains d.source = true) := by
    rcases P with _ | ⟨p, ps⟩
    · exact fun d hd => ⟨hd, fun h => absurd rfl h⟩
    · intro d hd
      rw [addFilterP_cons_dependencies, List.mem_filter] at hd
      exact ⟨hd.1, fun _ => hd.2⟩
  refine ⟨?_, ?_, ?_⟩
  · intro d hd
    obtain ⟨hd1, htgt⟩ := mem_deps_addFilterC.mp hd
    constructor
    · obtain ⟨hdg, hPc⟩ := hdepsub d hd1
      obtain ⟨n, hng, hnid⟩ := hsrc d hdg
      have hn1 : n ∈ (addFilterP g P).nodes := by
        rcases P with _ | ⟨p, ps⟩
        · exact hng
        · rw [addFilterP_cons_nodes, List.mem_filter]
          refine ⟨hng, ?_⟩
          rw [Bool.or_eq_true]
          left
          rw [hnid]
          exact hPc (by simp)
      refine ⟨n, ?_, hnid⟩
      rw [mem_nodes_addFilterC]
      refine ⟨hn1, ?_⟩
      rw [Bool.or_eq_true]
      right
      rw [List.any_eq_true]
      exact ⟨d, hd, by simp [hnid]⟩
    · rw [List.any_eq_true] at htgt
      obtain ⟨ep, hepout, hepid⟩ := htgt
      exact ⟨ep, hepout, by simpa using hepid⟩
  · intro hP ep hep
    have h1 := (mem_eps_addFilterC.mp hep).1
    rcases P with _ | ⟨p, ps⟩
    · exact absurd rfl hP
    · rw [addFilterP_cons_extensionPoints, List.mem_filter] at h1
      simpa using h1.2
  · decide

/-- Witness for `addFilter_orphan_invariant` at a concrete graph and
selection. -/
theorem addFilter_orphan_invariant_witness :
    (∀ d ∈ (addFilter exampleAddGraph ["prov-a"] []).dependencies,
      (∃ n ∈ (addFilter exampleAddGraph ["prov-a"] []).nodes, n.id = d.source) ∧
      ∃ ep ∈ (addFilter exampleAddGraph ["prov-a"] []).extensionPoints,
        ep.id = d.target) ∧
    ((["prov-a"] : List String) ≠ [] →
      ∀ ep ∈ (addFilter exampleAddGraph ["prov-a"] []).extensionPoints,
        ep.providers ≠ []) ∧
    ∃ ep ∈ (addFilter exampleDeclaredOnlyGraph [] ["plug-x"]).extensionPoints,
      ep.providers = [] :=
  addFilter_orphan_invariant exampleAddGraph ["prov-a"] [] (by decide)

/-! ## Claim C4 -/

theorem activeConsumersB_witness_mem {deps : List PluginDependency}
    {eps : List ExtensionPoint} {x : String}
    (h : activeConsumersB deps eps x = true) :
    ∃ d ∈ deps, ∃ ep ∈ eps, ep.id = d.target ∧ ep.definingPlugin = x := by
  rw [activeConsumersB, List.any_eq_true] at h
  obtain ⟨d, hd, hdx⟩ := h
  rcases hfind : eps.find? (fun ep => ep.id == d.target) with _ | ep'
  · rw [depTargetDef, hfind] at hdx
    simp at hdx
  · rw [depTargetDef, hfind] at hdx
    simp at hdx
    have hid : ep'.id = d.target := by
      have := List.find?_some hfind
      simpa using this
    exact ⟨d, hd, ep', List.mem_of_find?_eq_some hfind, hid, hdx⟩

/-- Claim C4: with an empty consumer selection, every surviving extension
point's defining plugin is reachable — some surviving dependency targets a
surviving extension point of that same plugin — and every surviving node is
either such a reachable consumer or the source of some surviving
dependency; a non-empty consumer selection is used verbatim. -/
theorem addFilter_default_consumers (g : GraphData) (P : List String) :
    (∀ ep ∈ (addFilter g P []).extensionPoints,
      ∃ d ∈ (addFilter g P []).dependencies,
        ∃ ep2 ∈ (addFilter g P []).extensionPoints,
          ep2.id = d.target ∧ ep2.definingPlugin = ep.definingPlugin) ∧
    (∀ n ∈ (addFilter g P []).nodes,
      (∃ d ∈ (addFilter g P []).dependencies,
        ∃ ep ∈ (addFilter g P []).extensionPoints,
          ep.id = d.target ∧ ep.definingPlugin = n.id) ∨
      ∃ d ∈ (addFilter g P []).dependencies, d.source = n.id) ∧
    ∀ C ep, C ≠ [] → ep ∈ (addFilter g P C).extensionPoints →
      C.contains ep.definingPlugin = true := by
  have hunfold : addFilter g P [] = addFilterC (addFilterP g P) [] := rfl
  rw [hunfold]
  set g1 := addFilterP g P with hg1
  set out := addFilterC g1 [] with hout
  have hstep : ∀ x, activeConsumersB g1.dependencies g1.extensionPoints x = true →
      activeConsumersB out.dependencies out.extensionPoints x = true := by
    intro x hx
    exact activeConsumersB_preserved (q := consumersToShow g1 [])
      (fun y hy => hy) hx
  refine ⟨?_, ?_, ?_⟩
  · intro ep hep
    obtain ⟨hep1, hc⟩ := mem_eps_addFilterC.mp hep
    exact activeConsumersB_witness_mem (hstep ep.definingPlugin hc)
  · intro n hn
    obtain ⟨hn1, hcond⟩ := mem_nodes_addFilterC.mp hn
    rw [Bool.or_eq_true] at hcond
    rcases hcond with hc | hact
    · exact Or.inl (activeConsumersB_witness_mem (hstep n.id hc))
    · rw [List.any_eq_true] at hact
      obtain ⟨d, hd, hds⟩ := hact
      exact Or.inr ⟨d, hd, by simpa using hds⟩
  · intro C ep hC hep
    rcases C with _ | ⟨c, cs⟩
    · exact absurd rfl hC
    · exact (mem_eps_addFilterC.mp hep).2

/-- Witness for `addFilter_default_consumers` at a concrete graph: the
surviving extension point of `def-b` is reachable from a surviving
dependency. -/
theorem addFilter_default_consumers_witness :
    ∃ d ∈ (addFilter exampleAddGraph [] []).dependencies,
      ∃ ep2 ∈ (addFilter exampleAddGraph [] []).extensionPoints,
        ep2.id = d.target ∧ ep2.definingPlugin = "def-b" := by
  have h := (addFilter_default_consumers exampleAddGraph []).1
    { id := "def-b/ep1", definingPlugin := "def-b", providers := ["prov-a"],
      extensionType := "link" } (by decide)
  simpa using h

/-! ## Claim C5 -/

theorem findDeclarer_eq_none (pd : PluginData) (target : String)
    (hext : ∀ e ∈ pd, e.2.extensions.isSome = true)
    (hnone : ∀ e ∈ pd, ∀ ep ∈ declaredEPs e.2, ep.id ≠ target) :
    findDeclarer pd target = .ok none := by
  induction pd with
  | nil => rfl
  | cons e rest ih =>
    obtain ⟨pid, info⟩ := e
    have hs := hext _ (List.mem_cons_self _ _)
    rcases hx : info.extensions with _ | ext
    · rw [hx] at hs
      simp at hs
    · have hfind : (ext.extensionPoints.getD []).find?
          (fun ep => ep.id == target) = none := by
        rw [List.find?_eq_none]
        intro ep hep
        have : ep.id ≠ target := by
          have := hnone (pid, info) (List.mem_cons_self _ _)
          apply this
          simpa [declaredEPs, hx] using hep
        simpa using this
      have hrest := ih (fun e he => hext e (List.mem_cons_of_mem _ he))
        (fun e he => hnone e (List.mem_cons_of_mem _ he))
      simpa [findDeclarer, hx, hfind] using hrest

theorem findDeclarer_mem (pd : PluginData) (target : String)
    (hext : ∀ e ∈ pd, e.2.extensions.isSome = true)
    (hex : ∃ e ∈ pd, ∃ ep ∈ declaredEPs e.2, ep.id = target) :
    ∃ pid info ep, (pid, info) ∈ pd ∧ ep ∈ declaredEPs info ∧ ep.id = target ∧
      findDeclarer pd target = .ok (some (pid, ep)) := by
  induction pd with
  | nil => simp at hex
  | cons e rest ih =>
    obtain ⟨pid, info⟩ := e
    have hs := hext _ (List.mem_cons_self _ _)
    rcases hx : info.extensions with _ | ext
    · rw [hx] at hs
      simp at hs
    · rcases hfind : (ext.extensionPoints.getD []).find?
          (fun ep => ep.id == target) with _ | ep
      · obtain ⟨e', he', ep', hep', hid'⟩ := hex
        rcases List.mem_cons.mp he' with he'' | he''
        · exfalso
          have hmem : ep' ∈ ext.extensionPoints.getD [] := by
            rw [he''] at hep'
            simpa [declaredEPs, hx] using hep'
          have := List.find?_eq_none.mp hfind ep' hmem
          simp [hid'] at this
        · obtain ⟨p2, i2, ep2, hmem, hd, hid, heq⟩ :=
            ih (fun e he => hext e (List.mem_cons_of_mem _ he)) ⟨e', he'', ep', hep', hid'⟩
          refine ⟨p2, i2, ep2, List.mem_cons_of_mem _ hmem, hd, hid, ?_⟩
          simpa [findDeclarer, hx, hfind] using heq
      · have hid : ep.id = target := by
          have := List.find?_some hfind
          simpa using this
        have hmem : ep ∈ declaredEPs info := by
          have := List.mem_of_find?_eq_some hfind
          simpa [declaredEPs, hx] using this
        refine ⟨pid, info, ep, List.mem_cons_self _ _, hmem, hid, ?_⟩
        simp [findDeclarer, hx, hfind]

/-- Claim C5: for an extension-point id no plugin declares,
`findExtensionPointDetails` infers the defining plugin in exactly the
specified order — `grafana/` prefix to `grafana-core`, then the first path
segment as a known plugin id, directly or with an `-app` suffix, then
`grafana-core` — and when some plugin does declare the id, a declaring
plugin becomes the defining plugin with its declared title and
description. -/
theorem findExtensionPointDetails_spec (pd : PluginData) (target : String)
    (hext : ∀ e ∈ pd, e.2.extensions.isSome = true) :
    ((∀ e ∈ pd, ∀ ep ∈ declaredEPs e.2, ep.id ≠ target) →
      findExtensionPointDetails pd target =
        .ok { definingPlugin := specInferredDefiningPlugin (pd.map Prod.fst) target,
              title := none, description := none }) ∧
    ((∃ e ∈ pd, ∃ ep ∈ declaredEPs e.2, ep.id = target) →
      ∃ pid info ep, (pid, info) ∈ pd ∧ ep ∈ declaredEPs info ∧ ep.id = target ∧
        findExtensionPointDetails pd target =
          .ok { definingPlugin := pid, title := ep.title,
                description := ep.description }) := by
  have hK : ∀ s, pd.any (fun e => e.1 == s) = (pd.map Prod.fst).contains s := by
    intro s
    rw [Bool.eq_iff_iff]
    simp [List.any_eq_true, List.mem_map, beq_iff_eq]
  constructor
  · intro hnone
    have h0 := findDeclarer_eq_none pd target hext hnone
    simp only [findExtensionPointDetails, h0, specInferredDefiningPlugin, hK]
    split_ifs <;> rfl
  · intro hex
    obtain ⟨pid, info, ep, hmem, hd, hid, heq⟩ := findDeclarer_mem pd target hext hex
    refine ⟨pid, info, ep, hmem, hd, hid, ?_⟩
    rw [findExtensionPointDetails, heq]

/-- Witness for `findExtensionPointDetails_spec`: on the concrete manifest,
the undeclared id `third/slot` is inferred per the specified order (to the
`grafana-core` fallback). -/
theorem findExtensionPointDetails_spec_witness :
    findExtensionPointDetails examplePluginData "third/slot" =
      .ok { definingPlugin := specInferredDefiningPlugin
              (examplePluginData.map Prod.fst) "third/slot",
            title := none, description := none } :=
  (findExtensionPointDetails_spec examplePluginData "third/slot" (by decide)).1
    (by decide)

/-! ## Claim C6 -/

theorem mem_dedupFirst_iff {a : String} : ∀ {l : List String}, a ∈ dedupFirst l ↔ a ∈ l := by
  intro l
  induction l using dedupFirst.induct with
  | case1 => simp [dedupFirst]
  | case2 x xs ih =>
    rw [dedupFirst]
    constructor
    · intro h
      rcases List.mem_cons.mp h with h | h
      · exact h ▸ List.mem_cons_self _ _
      · exact List.mem_cons_of_mem _ (List.mem_filter.mp (ih.mp h)).1
    · intro h
      rcases List.mem_cons.mp h with h | h
      · exact h ▸ List.mem_cons_self _ _
      · by_cases hax : a = x
        · exact hax ▸ List.mem_cons_self _ _
        · refine List.mem_cons_of_mem _ (ih.mpr ?_)
          rw [List.mem_filter]
          exact ⟨h, by simp [hax]⟩

theorem dedupFirst_nodup : ∀ (l : List String), (dedupFirst l).Nodup := by
  intro l
  induction l using dedupFirst.induct with
  | case1 => simp [dedupFirst]
  | case2 x xs ih =>
    rw [dedupFirst, List.nodup_cons]
    refine ⟨?_, ih⟩
    intro hmem
    have := (List.mem_filter.mp (mem_dedupFirst_iff.mp hmem)).2
    simp at this

theorem consumerEntries_originalId {nodes : List PluginNode} {p : String}
    {cx y0 gh : ℚ} {len : ℕ} :
    ∀ (cs : List String) (i : ℕ) (e : NodeWithPosition),
      e ∈ consumerEntries nodes p cx y0 gh len cs i → ∃ c, e.originalId = some c := by
  intro cs
  induction cs with
  | nil =>
    intro i e he
    simp [consumerEntries] at he
  | cons c rest ih =>
    intro i e he
    rw [consumerEntries] at he
    rcases List.mem_append.mp he with h | h
    · rcases hf : nodes.find? (fun n => n.id == c) with _ | n
      · rw [hf] at h
        simp at h
      · rw [hf] at h
        simp at h
        exact ⟨c, by simp [h, positionConsumerInstance]⟩
    · exact ih _ _ h

theorem layoutExposeGroups_provider_centred (g : GraphData) (opts : PanelOptions)
    (w h : ℚ) :
    ∀ (ks : List String) (y0 : ℚ), ks.Nodup →
      ∀ e ∈ layoutExposeGroups g opts w h ks y0, e.originalId = none →
        ∃ p ∈ ks, e.id = p ∧
          e.y = exposeGroupTopAux g opts h ks y0 p + exposeGroupHeight g opts h p / 2 ∧
          e.x = exMargin w + nodeWidthQ w / 2 := by
  intro ks
  induction ks with
  | nil =>
    intro y0 _ e he
    simp [layoutExposeGroups] at he
  | cons q rest ih =>
    intro y0 hnd e he horig
    rw [layoutExposeGroups] at he
    rcases List.mem_append.mp he with h12 | hrec
    · rcases List.mem_append.mp h12 with hprov | hcons
      · rcases hf : g.nodes.find? (fun n => n.id == q) with _ | n
        · rw [hf] at hprov
          simp at hprov
        · rw [hf] at hprov
          simp at hprov
          have hidq : n.id = q := by
            have := List.find?_some hf
            simpa using this
          refine ⟨q, List.mem_cons_self _ _, ?_, ?_, ?_⟩
          · rw [hprov, positionNode, ← hidq]
          · rw [hprov, positionNode]
            show y0 + exposeGroupHeight g opts h q / 2 =
              exposeGroupTopAux g opts h (q :: rest) y0 q +
                exposeGroupHeight g opts h q / 2
            rw [exposeGroupTopAux]
            simp
          · rw [hprov, positionNode]
      · exact absurd horig (by
          obtain ⟨c, hc⟩ := consumerEntries_originalId _ _ e hcons
          simp [hc])
    · rw [List.nodup_cons] at hnd
      obtain ⟨p, hp, hid, hy, hx⟩ :=
        ih (y0 + exposeGroupHeight g opts h q + exGroupSpacing h) hnd.2 e hrec horig
      refine ⟨p, List.mem_cons_of_mem _ hp, hid, ?_, hx⟩
      rw [hy, exposeGroupTopAux]
      have hqp : (q == p) = false := by
        have : q ≠ p := fun hqp => hnd.1 (hqp ▸ hp)
        simp [this]
      rw [hqp]
      simp

/-- Claim C6 (amended): in Expose mode every provider placement — the
entries with no `originalId` — has `y` equal to the vertical centre of its
component group: group top plus half the group height, derived from the
entity-group layout.  (The Add-mode half of the original claim is refuted
by `addLayout_provider_not_group_centred`.) -/
theorem calculateLayoutExpose_provider_group_centred (g : GraphData)
    (opts : PanelOptions) (w h : ℚ) :
    ∀ e ∈ calculateLayoutExpose g opts w h, e.originalId = none →
      ∃ p ∈ exposeGroupKeys g.exposedComponents, e.id = p ∧
        e.y = exposeGroupTop g opts w h p + exposeGroupHeight g opts h p / 2 ∧
        e.x = exMargin w + nodeWidthQ w / 2 := by
  intro e he horig
  rw [calculateLayoutExpose] at he
  by_cases hnil : g.nodes.isEmpty
  · rw [if_pos hnil] at he
    simp at he
  · rw [if_neg hnil] at he
    exact layoutExposeGroups_provider_centred g opts w h _ _
      (dedupFirst_nodup _) e he horig

/-- Concrete evaluation of the expose-mode layout on `exampleExposeGraph`
at a 1000x500 canvas. -/
theorem calculateLayoutExpose_example :
    calculateLayoutExpose exampleExposeGraph { visualizationMode := "expose" } 1000 500 =
      [exampleProviderPlacement, exampleConsumerPlacement] := by
  norm_num [calculateLayoutExpose, layoutExposeGroups, exposeGroupKeys,
    exposeGroupItems, consumerSetOf, dedupFirst, consumerEntries, consumerYAt,
    positionNode, positionConsumerInstance, exMargin, nodeWidthQ,
    exComponentSpacing, exGroupSpacing, exConsumerX, exampleExposeGraph,
    exampleProviderPlacement, exampleConsumerPlacement, max_def, List.find?,
    show ("plug-b" ++ "-at-" ++ "plug-a" : String) = "plug-b-at-plug-a" from by decide,
    show (("plug-a" : String) == "plug-b") = false from by decide,
    show (("plug-b" : String) == "plug-a") = false from by decide]

/-- Witness for `calculateLayoutExpose_provider_group_centred` at the
concrete expose graph: the provider placement of `plug-a` is centred on its
group. -/
theorem calculateLayoutExpose_provider_group_centred_witness :
    ∃ p ∈ exposeGroupKeys exampleExposeGraph.exposedComponents,
      exampleProviderPlacement.id = p ∧
      exampleProviderPlacement.y =
        exposeGroupTop exampleExposeGraph { visualizationMode := "expose" } 1000 500 p +
          exposeGroupHeight exampleExposeGraph { visualizationMode := "expose" } 500 p / 2 ∧
      exampleProviderPlacement.x = exMargin 1000 + nodeWidthQ 1000 / 2 :=
  calculateLayoutExpose_provider_group_centred exampleExposeGraph
    { visualizationMode := "expose" } 1000 500 exampleProviderPlacement
    (by rw [calculateLayoutExpose_example]; exact List.mem_cons_self _ _) rfl

/-- Claim C6 (counterexample): in Add mode the provider's `y` comes from its
index in the provider list (`margin + 75 + index * nodeSpacing`), not from
the centre of the extension-point group it feeds.  On a 1000x500 canvas the
sole provider `prov-a` is placed at `y = 95`, while the group of `def-b` —
the only group it feeds — is centred at `y = 255/2`. -/
theorem addLayout_provider_not_group_centred :
    (calculateLayout exampleAddGraph { visualizationMode := "add" } 1000 500).map
        (fun n => (n.id, n.y)) = [("prov-a", 95)] ∧
    (getExtensionPointPositions exampleAddGraph { visualizationMode := "add" } 1000
        "def-b/ep1").map (fun p => p.groupY + p.groupHeight / 2) = some (255/2) ∧
    (95 : ℚ) ≠ 255 / 2 := by
  refine ⟨?_, ?_, by norm_num⟩
  · norm_num [calculateLayout, calculateLayoutAdd, exampleAddGraph,
      addContentProviderB, stackProviders, positionNode, exMargin, max_def,
      show ¬(("add" : String) = "expose") from by decide]
  · norm_num [getExtensionPointPositions, exampleAddGraph, epPositionsAux,
      epGroupKeys, epGroupItems, dedupFirst, epSpacingOf, epSetGroupItems,
      setPos, exMargin, max_def,
      show ¬(("add" : String) = "expose") from by decide]

/-! ## Claim C7 -/

theorem string_append_left_injective (s : String) :
    ∀ {a b : String}, s ++ a = s ++ b → a = b := by
  intro a b h
  have hd := congrArg String.data h
  simp only [String.data_append] at hd
  exact String.ext (List.append_cancel_left hd)

theorem consumerEntries_filter_ids (nodes : List PluginNode) (p c : String)
    (cx y0 gh : ℚ) (len : ℕ) :
    ∀ (cs : List String) (i : ℕ), cs.Nodup →
      ((consumerEntries nodes p cx y0 gh len cs i).filter
        (fun e => e.originalId == some c)).map (fun e => e.id) =
      (if cs.contains c && (nodes.find? (fun n => n.id == c)).isSome
        then [c ++ "-at-" ++ p] else []) := by
  intro cs
  induction cs with
  | nil =>
    intro i _
    simp [consumerEntries]
  | cons c' rest ih =>
    intro i hnd
    rw [List.nodup_cons] at hnd
    rw [consumerEntries, List.filter_append, List.map_append]
    by_cases hcc : c' = c
    · subst hcc
      have hrest : rest.contains c' = false := by
        rcases h : rest.contains c' with _ | _
        · rfl
        · exact absurd (List.elem_iff.mp h) hnd.1
      rw [ih (i + 1) hnd.2, hrest]
      rcases hf : nodes.find? (fun n => n.id == c') with _ | n
      · simp [hf]
      · simp [hf, positionConsumerInstance]
    · have hcc' : (some c' == some c) = false := by simp [hcc]
      have hcontains : (c' :: rest).contains c = rest.contains c := by
        simp [List.contains_cons, show ¬(c = c') from fun e => hcc e.symm]
      rw [hcontains, ih (i + 1) hnd.2]
      rcases hf : nodes.find? (fun n => n.id == c') with _ | n
      · simp [hf]
      · simp [hf, positionConsumerInstance, hcc]

theorem layoutExposeGroups_fanout (g : GraphData) (opts : PanelOptions)
    (w h : ℚ) (c : String)
    (hn : (g.nodes.find? (fun n => n.id == c)).isSome = true) :
    ∀ (ks : List String) (y0 : ℚ),
      ((layoutExposeGroups g opts w h ks y0).filter
        (fun e => e.originalId == some c)).map (fun e => e.id) =
      (ks.filter (fun p => (consumerSetOf g.exposedComponents p).contains c)).map
        (fun p => c ++ "-at-" ++ p) := by
  intro ks
  induction ks with
  | nil =>
    intro y0
    simp [layoutExposeGroups]
  | cons q rest ih =>
    intro y0
    have hcons := consumerEntries_filter_ids g.nodes q c (exConsumerX w) y0
      (((exposeGroupItems g.exposedComponents q).length : ℚ) *
        exComponentSpacing opts h + 70)
      (consumerSetOf g.exposedComponents q).length
      (consumerSetOf g.exposedComponents q) 0 (dedupFirst_nodup _)
    rw [hn] at hcons
    rw [layoutExposeGroups]
    rcases hf : g.nodes.find? (fun n => n.id == q) with _ | n <;>
      simp only [hf, List.filter_append, List.map_append, hcons, ih,
        Bool.and_true] <;>
      by_cases hc : c ∈ consumerSetOf g.exposedComponents q <;>
        simp [List.filter_cons, hc, positionNode]

/-- Claim C7: for a consumer node `c`, the expose-mode layout produces
exactly one placement instance per distinct providing plugin whose
components `c` consumes, in group order; each instance carries the
synthesized id `c ++ "-at-" ++ p`, the instance ids are pairwise distinct,
and the provider list is exactly the set of providing plugins of components
that list `c` as a consumer. -/
theorem calculateLayoutExpose_consumer_fanout (g : GraphData)
    (opts : PanelOptions) (w h : ℚ) (c : String)
    (hn : (g.nodes.find? (fun n => n.id == c)).isSome = true) :
    (((calculateLayoutExpose g opts w h).filter
        (fun e => e.originalId == some c)).map (fun e => e.id) =
      ((exposeGroupKeys g.exposedComponents).filter
        (fun p => (consumerSetOf g.exposedComponents p).contains c)).map
          (fun p => c ++ "-at-" ++ p)) ∧
    (((calculateLayoutExpose g opts w h).filter
        (fun e => e.originalId == some c)).map (fun e => e.id)).Nodup ∧
    ∀ p, (p ∈ (exposeGroupKeys g.exposedComponents).filter
        (fun p => (consumerSetOf g.exposedComponents p).contains c)) ↔
      ∃ comp ∈ g.exposedComponents, comp.providingPlugin = p ∧ c ∈ comp.consumers := by
  have hne : g.nodes.isEmpty = false := by
    rcases hh : g.nodes with _ | _
    · rw [hh] at hn
      simp [List.find?] at hn
    · rfl
  have hmain : ((calculateLayoutExpose g opts w h).filter
      (fun e => e.originalId == some c)).map (fun e => e.id) =
      ((exposeGroupKeys g.exposedComponents).filter
        (fun p => (consumerSetOf g.exposedComponents p).contains c)).map
          (fun p => c ++ "-at-" ++ p) := by
    rw [calculateLayoutExpose, hne]
    simp only [Bool.false_eq_true, if_false]
    exact layoutExposeGroups_fanout g opts w h c hn _ _
  refine ⟨hmain, ?_, ?_⟩
  · rw [hmain]
    refine List.Nodup.map ?_ (List.Nodup.filter _ (dedupFirst_nodup _))
    intro a b hab
    have h1 : (c ++ "-at-") ++ a = (c ++ "-at-") ++ b := by
      simpa [String.append_assoc] using hab
    exact string_append_left_injective _ h1
  · intro p
    rw [List.mem_filter]
    constructor
    · rintro ⟨hpk, hpc⟩
      have hcm : c ∈ consumerSetOf g.exposedComponents p := List.elem_iff.mp hpc
      rw [consumerSetOf] at hcm
      have := mem_dedupFirst_iff.mp hcm
      rw [List.mem_flatten] at this
      obtain ⟨l, hl, hcl⟩ := this
      rw [List.mem_map] at hl
      obtain ⟨comp, hcomp, hlc⟩ := hl
      rw [List.mem_filter] at hcomp
      refine ⟨comp, hcomp.1, by simpa using hcomp.2, ?_⟩
      rw [← hlc] at hcl
      exact hcl
    · rintro ⟨comp, hcomp, hprov, hmem⟩
      constructor
      · rw [exposeGroupKeys]
        rw [mem_dedupFirst_iff, List.mem_map]
        exact ⟨comp, hcomp, hprov⟩
      · rw [consumerSetOf]
        refine List.elem_iff.mpr ?_
        rw [mem_dedupFirst_iff, List.mem_flatten]
        refine ⟨comp.consumers, ?_, hmem⟩
        rw [List.mem_map]
        exact ⟨comp, List.mem_filter.mpr ⟨hcomp, by simp [hprov]⟩, rfl⟩

/-- Witness for `calculateLayoutExpose_consumer_fanout` on the concrete
expose graph: consumer `plug-b` consumes from exactly one provider. -/
theorem calculateLayoutExpose_consumer_fanout_witness :
    (((calculateLayoutExpose exampleExposeGraph { visualizationMode := "expose" }
        1000 500).filter (fun e => e.originalId == some "plug-b")).map
          (fun e => e.id) =
      ((exposeGroupKeys exampleExposeGraph.exposedComponents).filter
        (fun p => (consumerSetOf exampleExposeGraph.exposedComponents p).contains
          "plug-b")).map (fun p => "plug-b" ++ "-at-" ++ p)) ∧
    (((calculateLayoutExpose exampleExposeGraph { visualizationMode := "expose" }
        1000 500).filter (fun e => e.originalId == some "plug-b")).map
          (fun e => e.id)).Nodup ∧
    ∀ p, (p ∈ (exposeGroupKeys exampleExposeGraph.exposedComponents).filter
        (fun p => (consumerSetOf exampleExposeGraph.exposedComponents p).contains
          "plug-b")) ↔
      ∃ comp ∈ exampleExposeGraph.exposedComponents,
        comp.providingPlugin = p ∧ "plug-b" ∈ comp.consumers :=
  calculateLayoutExpose_consumer_fanout exampleExposeGraph
    { visualizationMode := "expose" } 1000 500 "plug-b" (by decide)

/-! ## Claim C8 -/

theorem epSetGroupItems_isSome {x cgY sp gh : ℚ} {t : String} :
    ∀ (items : List String) (i : ℕ) (f : String → Option PosInfo),
      (t ∈ items ∨ (f t).isSome = true) →
      ((epSetGroupItems x cgY sp gh items i f) t).isSome = true := by
  intro items
  induction items with
  | nil =>
    intro i f h
    rcases h with h | h
    · simp at h
    · exact h
  | cons epId rest ih =>
    intro i f h
    rw [epSetGroupItems]
    apply ih
    rcases h with h | h
    · rcases List.mem_cons.mp h with h | h
      · right
        simp [setPos, h]
      · left
        exact h
    · right
      simp only [setPos]
      by_cases he : (t == epId) = true <;> simp [he, h]

theorem epPositionsAux_isSome (eps : List ExtensionPoint) (opts : PanelOptions)
    (w : ℚ) {t : String} :
    ∀ (ks : List String) (cgY : ℚ) (f : String → Option PosInfo),
      ((∃ p ∈ ks, ∃ ep ∈ eps, ep.definingPlugin = p ∧ ep.id = t) ∨
        (f t).isSome = true) →
      ((epPositionsAux eps opts w ks cgY f) t).isSome = true := by
  intro ks
  induction ks with
  | nil =>
    intro cgY f h
    rcases h with ⟨p, hp, _⟩ | h
    · simp at hp
    · exact h
  | cons p rest ih =>
    intro cgY f h
    rw [epPositionsAux]
    apply ih
    rcases h with ⟨q, hq, ep, hep, hdq, hid⟩ | h
    · rcases List.mem_cons.mp hq with hq | hq
      · right
        apply epSetGroupItems_isSome
        left
        rw [epGroupItems, List.mem_map]
        exact ⟨ep, List.mem_filter.mpr ⟨hep, by simp [hdq, hq]⟩, hid⟩
      · left
        exact ⟨q, hq, ep, hep, hdq, hid⟩
    · right
      apply epSetGroupItems_isSome
      right
      exact h

theorem getExtensionPointPositions_isSome (g : GraphData) (opts : PanelOptions)
    (w : ℚ) {t : String}
    (hmode : (opts.visualizationMode == "expose") = false)
    (hex : ∃ ep ∈ g.extensionPoints, ep.id = t) :
    ((getExtensionPointPositions g opts w) t).isSome = true := by
  rw [getExtensionPointPositions]
  simp only [hmode, Bool.false_eq_true, if_false]
  apply epPositionsAux_isSome
  left
  obtain ⟨ep, hep, hid⟩ := hex
  refine ⟨ep.definingPlugin, ?_, ep, hep, rfl, hid⟩
  rw [epGroupKeys, mem_dedupFirst_iff, List.mem_map]
  exact ⟨ep, hep, rfl⟩

theorem targetsFor_head (g : GraphData) {s dp : String}
    (h : dp ∈ defKeysFor g s) :
    ∃ t0, (targetsFor g s dp).head? = some t0 ∧
      ∃ ep ∈ g.extensionPoints, ep.id = t0 := by
  rw [defKeysFor, mem_dedupFirst_iff, List.mem_filterMap] at h
  obtain ⟨d, hd, hdp⟩ := h
  have hmemtgt : d.target ∈ targetsFor g s dp := by
    rw [targetsFor, List.mem_map]
    exact ⟨d, List.mem_filter.mpr ⟨hd, by simp [hdp]⟩, rfl⟩
  rcases hh : (targetsFor g s dp).head? with _ | t0
  · rw [List.head?_eq_none_iff] at hh
    rw [hh] at hmemtgt
    simp at hmemtgt
  · refine ⟨t0, rfl, ?_⟩
    have ht0 : t0 ∈ targetsFor g s dp := List.mem_of_mem_head? (hh ▸ rfl)
    rw [targetsFor, List.mem_map] at ht0
    obtain ⟨d', hd', htgt⟩ := ht0
    have hq : d' ∈ qualDeps g := ((List.mem_filter.mp (List.mem_filter.mp hd').1).1)
    rw [qualDeps, List.mem_filter] at hq
    have hsome := hq.2
    rw [depTargetDef] at hsome
    rcases hfind : g.extensionPoints.find? (fun ep => ep.id == d'.target) with _ | ep
    · rw [hfind] at hsome
      simp at hsome
    · refine ⟨ep, List.mem_of_find?_eq_some hfind, ?_⟩
      have := List.find?_some hfind
      rw [← htgt]
      simpa using this

theorem flatMap_singleton_map_pair {s : String} {l : List String}
    {F : String → List Connector}
    (h : ∀ dp ∈ l, ∃ cn, F dp = [cn] ∧ cn.sourceId = s ∧ cn.definingPlugin = dp) :
    (l.flatMap F).map (fun cn => (cn.sourceId, cn.definingPlugin)) =
      l.map (fun dp => (s, dp)) := by
  induction l with
  | nil => rfl
  | cons dp rest ih =>
    obtain ⟨cn, hcn, hs, hdp⟩ := h dp (List.mem_cons_self _ _)
    rw [List.flatMap_cons, List.map_append, hcn,
      ih (fun x hx => h x (List.mem_cons_of_mem _ hx))]
    simp [hs, hdp]

theorem inner_single (g : GraphData) (opts : PanelOptions) (w : ℚ)
    (hmode : (opts.visualizationMode == "expose") = false)
    (sn : NodeWithPosition) {s dp : String} (hdp : dp ∈ defKeysFor g s) :
    ∃ cn, (match (targetsFor g s dp).head? with
      | none => []
      | some t0 =>
        match getExtensionPointPositions g opts w t0 with
        | none => []
        | some pos => [mkConnector s dp sn pos w]) = [cn] ∧
      cn.sourceId = s ∧ cn.definingPlugin = dp := by
  obtain ⟨t0, hh, hex⟩ := targetsFor_head g hdp
  have hp := getExtensionPointPositions_isSome g opts w hmode hex
  rcases hpos : getExtensionPointPositions g opts w t0 with _ | pos
  · rw [hpos] at hp
    simp at hp
  · exact ⟨mkConnector s dp sn pos w, by simp only [hh, hpos], rfl, rfl⟩

theorem renderAddLinks_pairs (g : GraphData) (nodes : List NodeWithPosition)
    (opts : PanelOptions) (w : ℚ)
    (hmode : (opts.visualizationMode == "expose") = false)
    (hsrc : ∀ s ∈ sourceKeys g, (nodes.find? (fun n => n.id == s)).isSome = true) :
    (renderAddLinks g nodes opts w).map
        (fun cn => (cn.sourceId, cn.definingPlugin)) =
      (sourceKeys g).flatMap (fun s => (defKeysFor g s).map (fun dp => (s, dp))) := by
  rw [renderAddLinks]
  suffices hgen : ∀ ss : List String,
      (∀ s ∈ ss, (nodes.find? (fun n => n.id == s)).isSome = true) →
      (ss.flatMap (fun s =>
        match nodes.find? (fun n => n.id == s) with
        | none => []
        | some sn =>
          (defKeysFor g s).flatMap (fun dp =>
            match (targetsFor g s dp).head? with
            | none => []
            | some t0 =>
              match getExtensionPointPositions g opts w t0 with
              | none => []
              | some pos => [mkConnector s dp sn pos w]))).map
        (fun cn => (cn.sourceId, cn.definingPlugin)) =
      ss.flatMap (fun s => (defKeysFor g s).map (fun dp => (s, dp))) from
    hgen (sourceKeys g) hsrc
  intro ss
  induction ss with
  | nil =>
    intro _
    rfl
  | cons s rest ih =>
    intro hss
    have hfs := hss s (List.mem_cons_self _ _)
    rcases hf : nodes.find? (fun n => n.id == s) with _ | sn
    · rw [hf] at hfs
      simp at hfs
    · rw [List.flatMap_cons, List.flatMap_cons, List.map_append, hf,
        ih (fun x hx => hss x (List.mem_cons_of_mem _ hx))]
      congr 1
      exact flatMap_singleton_map_pair (fun dp hdp => inner_single g opts w hmode sn hdp)

theorem pairs_flatMap_nodup (ss : List String) (ds : String → List String)
    (hss : ss.Nodup) (hds : ∀ s, (ds s).Nodup) :
    (ss.flatMap (fun s => (ds s).map (fun dp => (s, dp)))).Nodup := by
  induction ss with
  | nil => simp
  | cons s rest ih =>
    rw [List.flatMap_cons]
    rw [List.nodup_cons] at hss
    refine List.Nodup.append ?_ (ih hss.2) ?_
    · exact List.Nodup.map (fun a b hab => congrArg Prod.snd hab) (hds s)
    · intro a ha ha'
      rw [List.mem_map] at ha
      obtain ⟨dp, _, hdp⟩ := ha
      rw [List.mem_flatMap] at ha'
      obtain ⟨s', hs', ha'⟩ := ha'
      rw [List.mem_map] at ha'
      obtain ⟨dp', _, hdp'⟩ := ha'
      have hss' : s = s' := by
        rw [← hdp] at hdp'
        exact (congrArg Prod.fst hdp').symm
      exact hss.1 (hss' ▸ hs')

theorem mem_renderAddLinks {g : GraphData} {nodes : List NodeWithPosition}
    {opts : PanelOptions} {w : ℚ} {cn : Connector}
    (h : cn ∈ renderAddLinks g nodes opts w) :
    ∃ s dp sn pos, nodes.find? (fun n => n.id == s) = some sn ∧
      (∃ t0, getExtensionPointPositions g opts w t0 = some pos) ∧
      cn = mkConnector s dp sn pos w := by
  rw [renderAddLinks, List.mem_flatMap] at h
  obtain ⟨s, hs, h⟩ := h
  rcases hf : nodes.find? (fun n => n.id == s) with _ | sn
  · rw [hf] at h
    simp at h
  · rw [hf] at h
    rw [List.mem_flatMap] at h
    obtain ⟨dp, hdp, h⟩ := h
    rcases hh : (targetsFor g s dp).head? with _ | t0
    · rw [hh] at h
      simp at h
    · simp only [hh] at h
      rcases hp : getExtensionPointPositions g opts w t0 with _ | pos
      · simp only [hp] at h
        simp at h
      · simp only [hp] at h
        simp at h
        exact ⟨s, dp, sn, pos, hf, ⟨t0, hp⟩, h⟩

/-- Claim C8: Add-mode routing emits exactly one connector per
`(source, definingPlugin)` pair — the connector pair list is duplicate-free
and contains a pair exactly when some dependency with that source targets
an extension point whose (first-found) defining plugin is that plugin —
and every connector is a cubic curve anchored at the provider's right edge
and the group's vertical centre whose control points sit at exactly 60% of
the horizontal distance from each endpoint towards the midpoint. -/
theorem renderAddLinks_spec (g : GraphData) (nodes : List NodeWithPosition)
    (opts : PanelOptions) (w : ℚ)
    (hmode : (opts.visualizationMode == "expose") = false)
    (hsrc : ∀ s ∈ sourceKeys g, (nodes.find? (fun n => n.id == s)).isSome = true) :
    ((renderAddLinks g nodes opts w).map
        (fun cn => (cn.sourceId, cn.definingPlugin))).Nodup ∧
    (∀ s dp,
      ((s, dp) ∈ (renderAddLinks g nodes opts w).map
        (fun cn => (cn.sourceId, cn.definingPlugin))) ↔
      ∃ d ∈ g.dependencies, d.source = s ∧
        depTargetDef g.extensionPoints d = some dp) ∧
    ∀ cn ∈ renderAddLinks g nodes opts w,
      cn.c1y = cn.startY ∧ cn.c2y = cn.endY ∧
      cn.c1x = cn.startX + ((cn.startX + cn.endX) / 2 - cn.startX) * (6/10) ∧
      cn.c2x = cn.endX - (cn.endX - (cn.startX + cn.endX) / 2) * (6/10) ∧
      (∃ sn, nodes.find? (fun n => n.id == cn.sourceId) = some sn ∧
        cn.startX = sn.x + nodeWidthQ w / 2 ∧ cn.startY = sn.y) ∧
      ∃ pos : PosInfo, (∃ t, getExtensionPointPositions g opts w t = some pos) ∧
        cn.endX = pos.x - 20 ∧ cn.endY = pos.groupY + pos.groupHeight / 2 := by
  have hpairs := renderAddLinks_pairs g nodes opts w hmode hsrc
  refine ⟨?_, ?_, ?_⟩
  · rw [hpairs]
    exact pairs_flatMap_nodup _ _ (dedupFirst_nodup _) (fun s => dedupFirst_nodup _)
  · intro s dp
    rw [hpairs, List.mem_flatMap]
    constructor
    · rintro ⟨s', hs', hmem⟩
      rw [List.mem_map] at hmem
      obtain ⟨dp', hdp', heq⟩ := hmem
      have hss : s' = s := congrArg Prod.fst heq
      have hdd : dp' = dp := congrArg Prod.snd heq
      subst hss
      subst hdd
      rw [defKeysFor, mem_dedupFirst_iff, List.mem_filterMap] at hdp'
      obtain ⟨d, hd, hddp⟩ := hdp'
      rw [List.mem_filter] at hd
      have hdq := hd.1
      rw [qualDeps, List.mem_filter] at hdq
      exact ⟨d, hdq.1, by simpa using hd.2, hddp⟩
    · rintro ⟨d, hd, hds, hddp⟩
      have hq : d ∈ qualDeps g := by
        rw [qualDeps, List.mem_filter]
        exact ⟨hd, by simp [hddp]⟩
      refine ⟨s, ?_, ?_⟩
      · rw [sourceKeys, mem_dedupFirst_iff, List.mem_map]
        exact ⟨d, hq, hds⟩
      · rw [List.mem_map]
        refine ⟨dp, ?_, rfl⟩
        rw [defKeysFor, mem_dedupFirst_iff, List.mem_filterMap]
        exact ⟨d, List.mem_filter.mpr ⟨hq, by simp [hds]⟩, hddp⟩
  · intro cn hcn
    obtain ⟨s, dp, sn, pos, hf, ⟨t0, hp⟩, hcneq⟩ := mem_renderAddLinks hcn
    subst hcneq
    exact ⟨rfl, rfl, rfl, rfl, ⟨sn, hf, rfl, rfl⟩, ⟨pos, ⟨t0, hp⟩, rfl, rfl⟩⟩

/-- Witness for `renderAddLinks_spec` on the concrete Add-mode graph: the
pair `(prov-a, def-b)` is routed because of the dependency on
`def-b/ep1`. -/
theorem renderAddLinks_spec_witness :
    ((("prov-a", "def-b") ∈
      (renderAddLinks exampleAddGraph exampleRouterNodes {} 1000).map
        (fun cn => (cn.sourceId, cn.definingPlugin))) ↔
      ∃ d ∈ exampleAddGraph.dependencies, d.source = "prov-a" ∧
        depTargetDef exampleAddGraph.extensionPoints d = some "def-b") :=
  (renderAddLinks_spec exampleAddGraph exampleRouterNodes {} 1000
    (by decide)
    (by
      intro s hs
      have hsk : sourceKeys exampleAddGraph = ["prov-a"] := by
        simp [sourceKeys, qualDeps, depTargetDef, exampleAddGraph, dedupFirst,
          List.find?]
      rw [hsk] at hs
      simp at hs
      subst hs
      decide)).2.1 "prov-a" "def-b"

/-! ## Claim C9 -/

theorem except_bind_isOk {α β : Type} {x : Except String α} {f : α → Except String β}
    (hx : x.isOk = true) (hf : ∀ a, (f a).isOk = true) : (x >>= f).isOk = true := by
  rcases x with e | a
  · simp [Except.isOk, Except.toBool] at hx
  · exact hf a

theorem except_foldlM_isOk {σ α : Type} {f : σ → α → Except String σ} :
    ∀ {l : List α}, (∀ s, ∀ a ∈ l, (f s a).isOk = true) →
      ∀ s, (l.foldlM f s).isOk = true := by
  intro l
  induction l with
  | nil =>
    intro _ s
    rfl
  | cons a as ih =>
    intro h s
    rw [List.foldlM_cons]
    refine except_bind_isOk (h s a (List.mem_cons_self _ _)) ?_
    intro s'
    exact ih (fun s a ha => h s a (List.mem_cons_of_mem _ ha)) s'

theorem findDeclarer_isOk (pd : PluginData) (target : String)
    (hext : ∀ e ∈ pd, e.2.extensions.isSome = true) :
    (findDeclarer pd target).isOk = true := by
  induction pd with
  | nil => rfl
  | cons e rest ih =>
    obtain ⟨pid, info⟩ := e
    have hs := hext _ (List.mem_cons_self _ _)
    rcases hx : info.extensions with _ | ext
    · rw [hx] at hs
      simp at hs
    · rcases hfind : (ext.extensionPoints.getD []).find?
          (fun ep => ep.id == target) with _ | ep
      · have := ih (fun e he => hext e (List.mem_cons_of_mem _ he))
        simpa [findDeclarer, hx, hfind] using this
      · simp [findDeclarer, hx, hfind, Except.isOk, Except.toBool]

theorem findExtensionPointDetails_isOk (pd : PluginData) (target : String)
    (hext : ∀ e ∈ pd, e.2.extensions.isSome = true) :
    (findExtensionPointDetails pd target).isOk = true := by
  have h := findDeclarer_isOk pd target hext
  rcases hd : findDeclarer pd target with e | o
  · rw [hd] at h
    simp [Except.isOk, Except.toBool] at h
  · rcases o with _ | ⟨pid, ep⟩
    · simp only [findExtensionPointDetails, hd]
      split_ifs <;> rfl
    · simp [findExtensionPointDetails, hd, Except.isOk, Except.toBool]

theorem processOneTarget_isOk (pd : PluginData) (pid kw et : String)
    (hext : ∀ e ∈ pd, e.2.extensions.isSome = true) :
    ∀ (st : BuildState) (target : String),
      (processOneTarget pd pid kw et st target).isOk = true := by
  intro st target
  have h := findExtensionPointDetails_isOk pd target hext
  rcases hd : findExtensionPointDetails pd target with e | details
  · rw [hd] at h
    simp [Except.isOk, Except.toBool] at h
  · simp [processOneTarget, hd, Except.isOk, Except.toBool]

theorem processItems_isOk (pd : PluginData) (pid kw et : String)
    (items : List AddedItem) (st : BuildState)
    (hext : ∀ e ∈ pd, e.2.extensions.isSome = true) :
    (processItems pd pid kw et items st).isOk = true := by
  rw [processItems]
  refine except_foldlM_isOk (fun s item _ => ?_) st
  exact except_foldlM_isOk (fun s t _ => processOneTarget_isOk pd pid kw et hext s t) s

theorem processEntryAdd_isOk (pd : PluginData)
    (hext : ∀ e ∈ pd, e.2.extensions.isSome = true) :
    ∀ (st : BuildState) (entry : String × PluginInfo), entry.2.extensions.isSome = true →
      (processEntryAdd pd st entry).isOk = true := by
  intro st entry hs
  rcases hx : entry.2.extensions with _ | ext
  · rw [hx] at hs
    simp at hs
  · rw [processEntryAdd, hx]
    by_cases hp : (isNonemptyOpt ext.addedLinks || isNonemptyOpt ext.addedComponents ||
        isNonemptyOpt ext.addedFunctions) = true
    · simp only [hp, if_true]
      refine except_bind_isOk (processItems_isOk pd _ _ _ _ _ hext) ?_
      intro st2
      refine except_bind_isOk (processItems_isOk pd _ _ _ _ _ hext) ?_
      intro st3
      exact processItems_isOk pd _ _ _ _ _ hext
    · rw [Bool.not_eq_true] at hp
      simp only [hp]
      rfl

theorem buildAddGraph_isOk (pd : PluginData)
    (hext : ∀ e ∈ pd, e.2.extensions.isSome = true) :
    (buildAddGraph pd).isOk = true := by
  rw [buildAddGraph]
  refine except_bind_isOk ?_ (fun st => rfl)
  exact except_foldlM_isOk
    (fun st entry he => processEntryAdd_isOk pd hext st entry (hext entry he)) _

theorem exposePass1Entry_isOk :
    ∀ (st : ExposeState) (entry : String × PluginInfo), entry.2.extensions.isSome = true →
      (exposePass1Entry st entry).isOk = true := by
  intro st entry hs
  rcases hx : entry.2.extensions with _ | ext
  · rw [hx] at hs
    simp at hs
  · rw [exposePass1Entry, hx]
    by_cases hp : isNonemptyOpt ext.exposedComponents = true
    · simp only [hp, if_true]
      rfl
    · rw [Bool.not_eq_true] at hp
      simp only [hp]
      rfl

theorem exposePass2Entry_isOk :
    ∀ (st : ExposeState) (entry : String × PluginInfo),
      entry.2.dependencies.isSome = true →
      (exposePass2Entry st entry).isOk = true := by
  intro st entry hs
  rcases hx : entry.2.dependencies with _ | depBlock
  · rw [hx] at hs
    simp at hs
  · rw [exposePass2Entry, hx]
    by_cases hp : isNonemptyOpt (depBlock.extensions.bind
        (fun e => e.exposedComponents)) = true
    · simp only [hp, if_true]
      rfl
    · rw [Bool.not_eq_true] at hp
      simp only [hp]
      rfl

/-- Claim C9 (amended): the pipeline is total on manifests whose records
all carry their `extensions` and `dependencies` blocks — the graph
builders, filters, layout and routing then complete without faulting for
every options record (missing or empty inner lists are simply skipped);
the layout and routing stages are total functions by construction.  (The
original unconditional claim is refuted by
`exposeBuilder_faults_on_missing_dependencies_block`.) -/
theorem processPluginDataToGraph_total (pd : PluginData) (opts : PanelOptions)
    (h : ∀ e ∈ pd, e.2.extensions.isSome = true ∧ e.2.dependencies.isSome = true) :
    (processPluginDataToGraph pd opts).isOk = true := by
  rw [processPluginDataToGraph]
  by_cases hm : (opts.visualizationMode == "expose") = true
  · simp only [hm, if_true]
    rw [processPluginDataToExposeGraph]
    refine except_bind_isOk ?_ ?_
    · exact except_foldlM_isOk
        (fun st entry he => exposePass1Entry_isOk st entry (h entry he).1) _
    · intro st1
      refine except_bind_isOk ?_ (fun st2 => rfl)
      exact except_foldlM_isOk
        (fun st entry he => exposePass2Entry_isOk st entry (h entry he).2) _
  · rw [Bool.not_eq_true] at hm
    simp only [hm]
    refine except_bind_isOk (buildAddGraph_isOk pd (fun e he => (h e he).1)) ?_
    intro g
    rfl

/-- Witness for `processPluginDataToGraph_total` on the concrete two-plugin
manifest with all blocks present, in both modes. -/
theorem processPluginDataToGraph_total_witness :
    (processPluginDataToGraph examplePluginData {}).isOk = true ∧
    (processPluginDataToGraph examplePluginData
      { visualizationMode := "expose" }).isOk = true :=
  ⟨processPluginDataToGraph_total examplePluginData {} (by decide),
   processPluginDataToGraph_total examplePluginData
     { visualizationMode := "expose" } (by decide)⟩

/-- Claim C9 (counterexample): a plugin record with an `extensions` block
but no `dependencies` block makes the expose-mode processor fault — the
second builder pass dereferences `pluginInfo.dependencies.extensions`
without a guard — so the pipeline is not total over the input shapes the
claim names. -/
theorem exposeBuilder_faults_on_missing_dependencies_block :
    (processPluginDataToGraph examplePluginDataNoDeps
        { visualizationMode := "expose" }).isOk = false := by
  decide

/-! ## Claim C10 -/

/-- Claim C10: `processTableDataToGraph` is independent of its panel-data
argument — the tabular input is ignored and the result is computed from the
bundled manifest and the options record alone. -/
theorem processTableDataToGraph_data_independent (pd : PluginData)
    (d1 d2 : PanelData) (o : PanelOptions) :
    processTableDataToGraph pd d1 o = processTableDataToGraph pd d2 o := rfl

end PluginGraph
